import Mathlib

/-!
Verification of the resume JSON-Patch engine (`applyResumePatch`).

Shallow embedding of `src/integrations/orpc/helpers/resume-patch.ts`:
the JSON-Patch-like engine that applies an ordered batch of
add/replace/remove/test/move/copy operations to a resume document,
resolving id-based path segments to array indices, normalizing payload
values, synchronizing the page layout, and gating the result behind a
schema validator.

JavaScript values are modelled by the `Json` inductive; plain objects are
association lists of `(String × Json)` pairs (JS objects never hold
duplicate keys; `objSet` updates the first matching binding and appends
otherwise, mirroring JS property assignment).  The external id generator
(`generateId` from `@/utils/string`, not part of the patch engine) is a
parameter `genId : Nat → String` applied to a running counter; the schema
gate (`resumeDataSchema`, an external collaborator consumed as a black
box) is a parameter `validate`.  Fallible code returns `Except PatchError`.
-/

set_option maxHeartbeats 1000000

namespace ResumePatch

/-- JSON values (JavaScript objects are ordered association lists). -/
inductive Json where
  | null
  | bool (b : Bool)
  | num (n : Int)
  | str (s : String)
  | arr (elems : List Json)
  | obj (fields : List (String × Json))
  deriving Repr

mutual

/-- Structural boolean equality of JSON values. -/
def jsonBeq : Json → Json → Bool
  | .null, .null => true
  | .bool a, .bool b => a == b
  | .num a, .num b => a == b
  | .str a, .str b => a == b
  | .arr a, .arr b => jsonBeqList a b
  | .obj a, .obj b => jsonBeqFields a b
  | _, _ => false

/-- Structural boolean equality of JSON lists. -/
def jsonBeqList : List Json → List Json → Bool
  | [], [] => true
  | x :: xs, y :: ys => jsonBeq x y && jsonBeqList xs ys
  | _, _ => false

/-- Structural boolean equality of JSON field lists. -/
def jsonBeqFields : List (String × Json) → List (String × Json) → Bool
  | [], [] => true
  | (k, v) :: xs, (k', v') :: ys => k == k' && jsonBeq v v' && jsonBeqFields xs ys
  | _, _ => false

end

instance : BEq Json := ⟨jsonBeq⟩

mutual

theorem jsonBeq_eq : ∀ (a b : Json), jsonBeq a b = true → a = b
  | .null, b, h => by cases b <;> simp_all [jsonBeq]
  | .bool _, b, h => by cases b <;> simp_all [jsonBeq]
  | .num _, b, h => by cases b <;> simp_all [jsonBeq]
  | .str _, b, h => by cases b <;> simp_all [jsonBeq]
  | .arr xs, .arr ys, h =>
    congrArg Json.arr (jsonBeqList_eq xs ys (by simpa [jsonBeq] using h))
  | .arr _, .null, h => by simp [jsonBeq] at h
  | .arr _, .bool _, h => by simp [jsonBeq] at h
  | .arr _, .num _, h => by simp [jsonBeq] at h
  | .arr _, .str _, h => by simp [jsonBeq] at h
  | .arr _, .obj _, h => by simp [jsonBeq] at h
  | .obj xs, .obj ys, h =>
    congrArg Json.obj (jsonBeqFields_eq xs ys (by simpa [jsonBeq] using h))
  | .obj _, .null, h => by simp [jsonBeq] at h
  | .obj _, .bool _, h => by simp [jsonBeq] at h
  | .obj _, .num _, h => by simp [jsonBeq] at h
  | .obj _, .str _, h => by simp [jsonBeq] at h
  | .obj _, .arr _, h => by simp [jsonBeq] at h

theorem jsonBeqList_eq : ∀ (a b : List Json), jsonBeqList a b = true → a = b
  | [], [], _ => rfl
  | [], _ :: _, h => by simp [jsonBeqList] at h
  | _ :: _, [], h => by simp [jsonBeqList] at h
  | x :: xs, y :: ys, h => by
    have h' := h
    simp only [jsonBeqList, Bool.and_eq_true] at h'
    exact congrArg₂ (· :: ·) (jsonBeq_eq x y h'.1) (jsonBeqList_eq xs ys h'.2)

theorem jsonBeqFields_eq :
    ∀ (a b : List (String × Json)), jsonBeqFields a b = true → a = b
  | [], [], _ => rfl
  | [], _ :: _, h => by simp [jsonBeqFields] at h
  | _ :: _, [], h => by simp [jsonBeqFields] at h
  | (k, v) :: xs, (k', v') :: ys, h => by
    have h' := h
    simp only [jsonBeqFields, Bool.and_eq_true, beq_iff_eq] at h'
    have hv := jsonBeq_eq v v' h'.1.2
    have hrest := jsonBeqFields_eq xs ys h'.2
    simp [h'.1.1, hv, hrest]

end

mutual

theorem jsonBeq_refl : ∀ (a : Json), jsonBeq a a = true
  | .null => rfl
  | .bool _ => by simp [jsonBeq]
  | .num _ => by simp [jsonBeq]
  | .str _ => by simp [jsonBeq]
  | .arr xs => by simpa [jsonBeq] using jsonBeqList_refl xs
  | .obj fs => by simpa [jsonBeq] using jsonBeqFields_refl fs

theorem jsonBeqList_refl : ∀ (l : List Json), jsonBeqList l l = true
  | [] => rfl
  | x :: xs => by simp [jsonBeqList, jsonBeq_refl x, jsonBeqList_refl xs]

theorem jsonBeqFields_refl : ∀ (l : List (String × Json)), jsonBeqFields l l = true
  | [] => rfl
  | (k, v) :: xs => by simp [jsonBeqFields, jsonBeq_refl v, jsonBeqFields_refl xs]

end

instance : LawfulBEq Json where
  eq_of_beq h := jsonBeq_eq _ _ h
  rfl := jsonBeq_refl _

instance : DecidableEq Json := fun a b =>
  decidable_of_iff (jsonBeq a b = true) ⟨jsonBeq_eq a b, fun h => h ▸ jsonBeq_refl a⟩

/-- The four ORPCError codes raised by the patch engine
(`INVALID_PATCH_PATH`, `PATCH_TARGET_NOT_FOUND`, `PATCH_CONFLICT`,
`INVALID_PATCH`). -/
inductive PatchError where
  | invalidPatchPath (path : String)
  | patchTargetNotFound (path : String)
  | patchConflict (path : String)
  | invalidPatch (issues : List (String × String))
  deriving Repr, DecidableEq

/-- `jsonPatchOpSchema`: the tagged operation union. -/
inductive JsonPatchOp where
  | add (path : String) (value : Json)
  | replace (path : String) (value : Json)
  | remove (path : String)
  | test (path : String) (value : Json)
  | move (fromPath : String) (path : String)
  | copy (fromPath : String) (path : String)
  deriving Repr

instance {ε α : Type} [DecidableEq ε] [DecidableEq α] : DecidableEq (Except ε α) := fun a b =>
  match a, b with
  | .ok x, .ok y =>
    if h : x = y then .isTrue (by rw [h]) else .isFalse (by simp [h])
  | .error x, .error y =>
    if h : x = y then .isTrue (by rw [h]) else .isFalse (by simp [h])
  | .ok _, .error _ => .isFalse (by simp)
  | .error _, .ok _ => .isFalse (by simp)

/-- The `path` field of an operation. -/
def JsonPatchOp.path : JsonPatchOp → String
  | .add p _ => p
  | .replace p _ => p
  | .remove p => p
  | .test p _ => p
  | .move _ p => p
  | .copy _ p => p

/-- Whether the operation is a `remove` (used for the top-level-path rule). -/
def opIsRemove : JsonPatchOp → Bool
  | .remove _ => true
  | _ => false

/-! ## JS object primitives -/

/-- Property read (`obj[key]`); `none` models `undefined`. -/
def objGet : List (String × Json) → String → Option Json
  | [], _ => none
  | (k', v') :: rest, k => if k' == k then some v' else objGet rest k

/-- Property existence (`key in obj`). -/
def objHas (fields : List (String × Json)) (k : String) : Bool :=
  (objGet fields k).isSome

/-- Property assignment (`obj[key] = v`): update the first binding in
place, else append. -/
def objSet : List (String × Json) → String → Json → List (String × Json)
  | [], k, v => [(k, v)]
  | (k', v') :: rest, k, v =>
    if k' == k then (k, v) :: rest else (k', v') :: objSet rest k v

/-- Property deletion (`delete obj[key]`): drop the first binding. -/
def objDelete : List (String × Json) → String → List (String × Json)
  | [], _ => []
  | (k', v') :: rest, k =>
    if k' == k then rest else (k', v') :: objDelete rest k

/-- Read a key on an arbitrary value (`undefined` on non-objects). -/
def jGet (j : Json) (k : String) : Option Json :=
  match j with
  | .obj fields => objGet fields k
  | _ => none

/-- Coerce to a list of elements (`[]` when not an array). -/
def asArr : Option Json → List Json
  | some (.arr l) => l
  | _ => []

/-- Set a key on an object value (no-op on non-objects). -/
def setKey (j : Json) (k : String) (v : Json) : Json :=
  match j with
  | .obj fields => .obj (objSet fields k v)
  | _ => j

/-! ## Deep structural equality (`fast-deep-equal`) -/

mutual

/-- `fast-deep-equal`: arrays compare element-wise, objects compare by key
set (order-insensitive), primitives by value. -/
def deepEqual : Json → Json → Bool
  | .null, .null => true
  | .bool a, .bool b => a == b
  | .num a, .num b => a == b
  | .str a, .str b => a == b
  | .arr a, .arr b => deepEqualList a b
  | .obj a, .obj b => a.length == b.length && deepEqualFields a b
  | _, _ => false

/-- Element-wise comparison of array contents. -/
def deepEqualList : List Json → List Json → Bool
  | [], [] => true
  | x :: xs, y :: ys => deepEqual x y && deepEqualList xs ys
  | _, _ => false

/-- Every key of the first object maps to a deep-equal value in the second. -/
def deepEqualFields : List (String × Json) → List (String × Json) → Bool
  | [], _ => true
  | (k, v) :: rest, b =>
    (match objGet b k with
     | some w => deepEqual v w
     | none => false) && deepEqualFields rest b

end

/-! ## Path grammar (`parseJsonPointer`, `toJsonPointer`, segment tests) -/

/-- `forbiddenPathSegments`: deny-list against prototype pollution. -/
def forbiddenPathSegments : List String := ["__proto__", "prototype", "constructor"]

/-- `topLevelPaths`: allowed length-1 paths outside `data`. -/
def topLevelPaths : List String := ["name", "slug", "tags", "isPublic"]

/-- `nonRemovableTopLevelPaths`: top-level fields a `remove` may not target. -/
def nonRemovableTopLevelPaths : List String := ["name", "slug", "tags", "isPublic"]

/-- `sectionTypeSchema.options`: the 12 built-in section types. -/
def sectionTypes : List String :=
  ["profiles", "experience", "education", "projects", "skills", "languages",
   "interests", "awards", "certifications", "publications", "volunteer", "references"]

/-- `sectionsWithWebsite`: the 9 section types whose items carry `website`. -/
def sectionsWithWebsite : List String :=
  ["awards", "certifications", "education", "experience", "projects",
   "publications", "references", "volunteer", "profiles"]

/-- `sectionsWithIcon`: the 3 section types whose items carry `icon`. -/
def sectionsWithIcon : List String := ["profiles", "skills", "interests"]

/-- `allowedLayoutIds`: built-in layout slot names (`summary` + 12 types). -/
def allowedLayoutIds : List String := "summary" :: sectionTypes

/-- Accumulate the decimal value of a digit list (`Number` on digits). -/
def parseNatAux : List Char → Nat → Nat
  | [], acc => acc
  | c :: cs, acc => parseNatAux cs (acc * 10 + (c.toNat - '0'.toNat))

/-- `isArrayIndex`: the segment matches `^\d+$`. -/
def isArrayIndex (segment : String) : Bool :=
  !segment.data.isEmpty && segment.data.all Char.isDigit

/-- `toArrayIndex`: numeric value of an all-digits segment, else `none`. -/
def toArrayIndex (segment : String) : Option Nat :=
  if isArrayIndex segment then some (parseNatAux segment.data 0) else none

/-- `shouldResolveId`: a bare segment is treated as an implicit entity id
iff it is not `-`, not `id`, and not all-digits. -/
def shouldResolveId (segment : String) : Bool :=
  segment != "-" && segment != "id" && !isArrayIndex segment

/-- Split a character list at every occurrence of `sep` (JS `split`). -/
def splitCharAux (sep : Char) : List Char → List Char → List String
  | [], acc => [String.mk acc.reverse]
  | c :: cs, acc =>
    if c == sep then String.mk acc.reverse :: splitCharAux sep cs []
    else splitCharAux sep cs (c :: acc)

/-- JS `String.prototype.split` with a single-character separator. -/
def splitChar (sep : Char) (s : String) : List String :=
  splitCharAux sep s.data []

/-- Replace every (non-overlapping, left-to-right) two-character pattern
`a b` by the character `r` (JS `replaceAll` with a 2-char pattern). -/
def replacePairWith (a b r : Char) : List Char → List Char
  | [] => []
  | [c] => [c]
  | c1 :: c2 :: cs =>
    if c1 == a && c2 == b then r :: replacePairWith a b r cs
    else c1 :: replacePairWith a b r (c2 :: cs)

/-- Replace every character `t` by the two characters `r1 r2`
(JS `replaceAll` with a 1-char pattern and 2-char replacement). -/
def replaceCharWithPair (t r1 r2 : Char) : List Char → List Char
  | [] => []
  | c :: cs =>
    if c == t then r1 :: r2 :: replaceCharWithPair t r1 r2 cs
    else c :: replaceCharWithPair t r1 r2 cs

/-- JSON-pointer unescaping (`~1` → `/` then `~0` → `~`). -/
def unescapeSegment (s : String) : String :=
  String.mk (replacePairWith '~' '0' '~' (replacePairWith '~' '1' '/' s.data))

/-- JSON-pointer escaping (`~` → `~0` then `/` → `~1`). -/
def escapeSegment (s : String) : String :=
  String.mk (replaceCharWithPair '/' '~' '1' (replaceCharWithPair '~' '~' '0' s.data))

/-- `parseJsonPointer`: reject paths that do not start with `/`, then split
on `/` and unescape each segment. -/
def parseJsonPointer (path : String) : Except PatchError (List String) :=
  match path.data with
  | '/' :: rest => .ok ((splitCharAux '/' rest []).map unescapeSegment)
  | _ => .error (.invalidPatchPath path)

/-- `toJsonPointer`: escape each segment and join with `/` under a leading `/`. -/
def toJsonPointer (segs : List String) : String :=
  "/" ++ String.intercalate "/" (segs.map escapeSegment)

/-- `validatePatchPath`: empty check, forbidden-segment deny-list, then the
first-segment scope rule (`data` unrestricted; `name`/`slug`/`tags`/`isPublic`
as length-1 paths except for removes; `tags` sub-paths; all else rejected). -/
def validatePatchPath (segs : List String) (op : JsonPatchOp) (path : String)
    (forFrom : Bool) : Except PatchError Unit :=
  if segs.isEmpty then .error (.invalidPatchPath path)
  else if segs.any (fun s => forbiddenPathSegments.contains s) then
    .error (.invalidPatchPath path)
  else if segs.getD 0 "" == "data" then .ok ()
  else if topLevelPaths.contains (segs.getD 0 "") && segs.length == 1 then
    if (forFrom || opIsRemove op) && nonRemovableTopLevelPaths.contains (segs.getD 0 "") then
      .error (.invalidPatchPath path)
    else .ok ()
  else if segs.getD 0 "" == "tags" then .ok ()
  else .error (.invalidPatchPath path)

/-! ## Identifier resolution (`resolveItemsById`, `resolveById`) -/

/-- Find the index of the entity whose `id` equals the given string. -/
def findIdIndex (items : List Json) (idv : String) : Option Nat :=
  items.findIdx? (fun it => jGet it "id" == some (.str idv))

/-- `resolveItemsById`: resolve the item segment at `idx` of `segs` against
`items` — the explicit `id/<value>` form collapses two segments into the
matching index, a bare non-numeric segment resolves implicitly, and a
numeric segment or `-` is left untouched. -/
def resolveItemsById (segs : List String) (idx : Nat) (items : List Json) :
    Except PatchError (List String) :=
  let itemSegment := segs.getD idx ""
  if itemSegment == "id" then
    match segs.get? (idx + 1) with
    | none => .error (.invalidPatchPath (toJsonPointer segs))
    | some itemId =>
      if itemId == "" then .error (.invalidPatchPath (toJsonPointer segs))
      else
        match findIdIndex items itemId with
        | some i => .ok (segs.take idx ++ [toString i] ++ segs.drop (idx + 2))
        | none => .error (.patchTargetNotFound (toJsonPointer segs))
  else if shouldResolveId itemSegment then
    match findIdIndex items itemSegment with
    | some i => .ok (segs.set idx (toString i))
    | none => .error (.patchTargetNotFound (toJsonPointer segs))
  else .ok segs

/-- The items array of built-in section `ty` (`data.sections[ty]?.items ?? []`). -/
def sectionItems (data : Json) (ty : String) : List Json :=
  asArr ((jGet data "sections").bind (fun s => jGet s ty) |>.bind (fun sec => jGet sec "items"))

/-- `resolveById`: translate id-style segments under `data/sections/<type>/items`
and `data/customSections` into concrete array indices. -/
def resolveById (segs : List String) (data : Json) : Except PatchError (List String) :=
  if segs.getD 0 "" != "data" then .ok segs
  else if segs.getD 1 "" == "sections" then
    match segs.get? 2 with
    | some ty =>
      if sectionTypes.contains ty then
        if segs.getD 3 "" == "items" && decide (5 ≤ segs.length) then
          resolveItemsById segs 4 (sectionItems data ty)
        else .ok segs
      else .error (.invalidPatchPath (toJsonPointer segs))
    | none => .error (.invalidPatchPath (toJsonPointer segs))
  else if segs.getD 1 "" == "customSections" && decide (3 ≤ segs.length) then do
    let csList := asArr (jGet data "customSections")
    let segs ←
      if segs.getD 2 "" == "id" then
        match segs.get? 3 with
        | none => .error (.invalidPatchPath (toJsonPointer segs))
        | some idv =>
          if idv == "" then .error (.invalidPatchPath (toJsonPointer segs))
          else
            match findIdIndex csList idv with
            | some i => .ok (segs.take 2 ++ [toString i] ++ segs.drop 4)
            | none => .error (.patchTargetNotFound (toJsonPointer segs))
      else if shouldResolveId (segs.getD 2 "") then
        match findIdIndex csList (segs.getD 2 "") with
        | some i => .ok (segs.set 2 (toString i))
        | none => .error (.patchTargetNotFound (toJsonPointer segs))
      else .ok segs
    if segs.getD 3 "" == "items" && decide (5 ≤ segs.length) then
      match toArrayIndex (segs.getD 2 "") with
      | some i =>
        match csList.get? i with
        | some sec => resolveItemsById segs 4 (asArr (jGet sec "items"))
        | none => .error (.patchTargetNotFound (toJsonPointer segs))
      | none => .error (.patchTargetNotFound (toJsonPointer segs))
    else .ok segs
  else .ok segs

/-! ## Value access and primitive mutations -/

/-- `getValueAtPath`: walk every segment; `-` inside an array is an invalid
path, any other miss is a missing target. -/
def getValueAtPath (current : Json) (segs : List String) (path : String) :
    Except PatchError Json :=
  match segs with
  | [] => .ok current
  | seg :: rest =>
    match current with
    | .arr xs =>
      if seg == "-" then .error (.invalidPatchPath path)
      else
        match toArrayIndex seg with
        | some i =>
          match xs.get? i with
          | some v => getValueAtPath v rest path
          | none => .error (.patchTargetNotFound path)
        | none => .error (.patchTargetNotFound path)
    | .obj fields =>
      match objGet fields seg with
      | some v => getValueAtPath v rest path
      | none => .error (.patchTargetNotFound path)
    | _ => .error (.patchTargetNotFound path)

/-- `safeGetValueAtPath`: swallow failures into `none`. -/
def safeGetValueAtPath (current : Json) (segs : List String) : Option Json :=
  match getValueAtPath current segs (toJsonPointer segs) with
  | .ok v => some v
  | .error _ => none

/-- `applyAdd`: array insert (with append marker `-` and inclusive index
bound) or unconditional object assignment. -/
def applyAdd (parent : Json) (key : String) (value : Json) : Except PatchError Json :=
  match parent with
  | .arr xs =>
    match (if key == "-" then some xs.length else toArrayIndex key) with
    | none => .error (.invalidPatchPath key)
    | some i =>
      if xs.length < i then .error (.invalidPatchPath key)
      else .ok (.arr (xs.take i ++ value :: xs.drop i))
  | .obj fields => .ok (.obj (objSet fields key value))
  | _ => .error (.patchTargetNotFound key)

/-- `applyReplace`: overwrite an existing array index or object key. -/
def applyReplace (parent : Json) (key : String) (value : Json) : Except PatchError Json :=
  match parent with
  | .arr xs =>
    match toArrayIndex key with
    | some i =>
      if i < xs.length then .ok (.arr (xs.set i value))
      else .error (.patchTargetNotFound key)
    | none => .error (.patchTargetNotFound key)
  | .obj fields =>
    if objHas fields key then .ok (.obj (objSet fields key value))
    else .error (.patchTargetNotFound key)
  | _ => .error (.patchTargetNotFound key)

/-- `applyRemove`: splice out an existing array index or delete an existing
object key. -/
def applyRemove (parent : Json) (key : String) : Except PatchError Json :=
  match parent with
  | .arr xs =>
    match toArrayIndex key with
    | some i =>
      if i < xs.length then .ok (.arr (xs.eraseIdx i))
      else .error (.patchTargetNotFound key)
    | none => .error (.patchTargetNotFound key)
  | .obj fields =>
    if objHas fields key then .ok (.obj (objDelete fields key))
    else .error (.patchTargetNotFound key)
  | _ => .error (.patchTargetNotFound key)

/-- `applyTest`: deep-equality check of the current value against the
operation's literal value; the parent is returned untouched. -/
def applyTest (parent : Json) (key : String) (value : Json) : Except PatchError Json :=
  match parent with
  | .arr xs =>
    match toArrayIndex key with
    | some i =>
      match xs.get? i with
      | some v =>
        if deepEqual v value then .ok parent else .error (.patchConflict key)
      | none => .error (.patchTargetNotFound key)
    | none => .error (.patchTargetNotFound key)
  | .obj fields =>
    match objGet fields key with
    | some v =>
      if deepEqual v value then .ok parent else .error (.patchConflict key)
    | none => .error (.patchTargetNotFound key)
  | _ => .error (.patchTargetNotFound key)

/-- Walk the all-but-last segments down to the parent (`getParentAndKey`'s
walk) and rebuild the document around the transformed parent. -/
def mutateParent (current : Json) (pre : List String) (path : String)
    (f : Json → Except PatchError Json) : Except PatchError Json :=
  match pre with
  | [] => f current
  | seg :: rest =>
    match current with
    | .arr xs =>
      match toArrayIndex seg with
      | some i =>
        match xs.get? i with
        | some child => do
          let child' ← mutateParent child rest path f
          .ok (.arr (xs.set i child'))
        | none => .error (.patchTargetNotFound path)
      | none => .error (.patchTargetNotFound path)
    | .obj fields =>
      match objGet fields seg with
      | some child => do
        let child' ← mutateParent child rest path f
        .ok (.obj (objSet fields seg child'))
      | none => .error (.patchTargetNotFound path)
    | _ => .error (.patchTargetNotFound path)

/-- `getParentAndKey` combined with a primitive mutation: empty paths are
invalid; otherwise apply `f parent key` at the end of the walk. -/
def mutateAtSegs (root : Json) (segs : List String) (path : String)
    (f : Json → String → Except PatchError Json) : Except PatchError Json :=
  match segs with
  | [] => .error (.invalidPatchPath path)
  | s :: ss =>
    mutateParent root (s :: ss).dropLast path
      (fun parent => f parent ((s :: ss).getLastD ""))

/-! ## Value normalizer -/

/-- The default `website` payload `{url: "", label: ""}`. -/
def defaultWebsite : Json := .obj [("url", .str ""), ("label", .str "")]

/-- The existing entity's fields, when the existing value is a plain object. -/
def existingFieldsOf : Option Json → Option (List (String × Json))
  | some (.obj ef) => some ef
  | _ => none

/-- Optional-chained read on the existing entity (`existing?.k`). -/
def exGet (ef : Option (List (String × Json))) (k : String) : Option Json :=
  ef.bind (fun f => objGet f k)

/-- JS nullish coalescing (`v ?? d`): `null`/`undefined` fall back to `d`. -/
def jsCoalesce : Option Json → Json → Json
  | some .null, d => d
  | some v, _ => v
  | none, d => d

/-- The `id` defaulting step shared by items and custom sections:
`if (x.id === undefined) x.id = existing?.id ?? generateId()`. -/
def fillId (genId : Nat → String) (fields : List (String × Json))
    (ef : Option (List (String × Json))) (c : Nat) : List (String × Json) × Nat :=
  if (objGet fields "id").isSome then (fields, c)
  else
    match exGet ef "id" with
    | some .null => (objSet fields "id" (.str (genId c)), c + 1)
    | some v => (objSet fields "id" v, c)
    | none => (objSet fields "id" (.str (genId c)), c + 1)

/-- A `if (x.key === undefined) x.key = v` defaulting step. -/
def fillKey (key : String) (v : Json) (f : List (String × Json)) :
    List (String × Json) :=
  if (objGet f key).isSome then f else objSet f key v

/-- A `if (set.has(ty) && x.key === undefined) x.key = v` defaulting step
(the per-section-type `website` / `icon` fills). -/
def fillKeyWhen (member : Bool) (key : String) (v : Json)
    (f : List (String × Json)) : List (String × Json) :=
  if member && (objGet f key).isNone then objSet f key v else f

/-- The custom-section `type` step:
`if (x.type === undefined) x.type = existing?.type` (no nullish default:
an absent existing type leaves the key absent). -/
def fillType (ef : Option (List (String × Json))) (f : List (String × Json)) :
    List (String × Json) :=
  if (objGet f "type").isSome then f
  else
    match exGet ef "type" with
    | some v => objSet f "type" v
    | none => f

/-- The field-level body of `normalizeItem`: fill `id`, `hidden`, and (per
section type) `website` / `icon` from the existing entity or from type
defaults; every other field passes through untouched. -/
def normalizeItemFields (genId : Nat → String) (ty : String)
    (fields : List (String × Json)) (ef : Option (List (String × Json)))
    (c : Nat) : List (String × Json) × Nat :=
  let step := fillId genId fields ef c
  (fillKeyWhen (sectionsWithIcon.contains ty) "icon"
      (jsCoalesce (exGet ef "icon") (.str ""))
    (fillKeyWhen (sectionsWithWebsite.contains ty) "website"
        (jsCoalesce (exGet ef "website") defaultWebsite)
      (fillKey "hidden" (jsCoalesce (exGet ef "hidden") (.bool false)) step.1)),
   step.2)

/-- `normalizeItem`: normalize a plain-object item; non-object values are
returned as-is. -/
def normalizeItem (genId : Nat → String) (ty : String) (value : Json)
    (existing : Option Json) (c : Nat) : Json × Nat :=
  match value with
  | .obj fields =>
    let r := normalizeItemFields genId ty fields (existingFieldsOf existing) c
    (.obj r.1, r.2)
  | v => (v, c)

/-- Normalize each element of an item list with no existing entity,
threading the id counter left to right. -/
def normItemList (genId : Nat → String) (ty : String) :
    List Json → Nat → List Json × Nat
  | [], c => ([], c)
  | v :: vs, c =>
    let r1 := normalizeItem genId ty v none c
    let r2 := normItemList genId ty vs r1.2
    (r1.1 :: r2.1, r2.2)

/-- `normalizeItemsArray`: map `normalizeItem` (without existing entity)
over an array value; non-arrays pass through. -/
def normalizeItemsArray (genId : Nat → String) (ty : String) (value : Json)
    (c : Nat) : Json × Nat :=
  match value with
  | .arr vs =>
    let r := normItemList genId ty vs c
    (.arr r.1, r.2)
  | v => (v, c)

/-- The field-level body of `normalizeCustomSection`: fill `id`, `hidden`,
`columns`, `title`, `type`, `items` from the existing section or defaults,
then normalize the items by the section's type. -/
def normalizeCustomSectionFields (genId : Nat → String)
    (fields : List (String × Json)) (ef : Option (List (String × Json)))
    (c : Nat) : List (String × Json) × Nat :=
  let step := fillId genId fields ef c
  let f6 :=
    fillKey "items" (jsCoalesce (exGet ef "items") (.arr []))
      (fillType ef
        (fillKey "title" (jsCoalesce (exGet ef "title") (.str ""))
          (fillKey "columns" (jsCoalesce (exGet ef "columns") (.num 1))
            (fillKey "hidden" (jsCoalesce (exGet ef "hidden") (.bool false))
              step.1))))
  match objGet f6 "items", objGet f6 "type" with
  | some (.arr its), some (.str tys) =>
    let r := normItemList genId tys its step.2
    (objSet f6 "items" (.arr r.1), r.2)
  | _, _ => (f6, step.2)

/-- `normalizeCustomSection`: normalize a plain-object custom section;
non-object values are returned as-is. -/
def normalizeCustomSection (genId : Nat → String) (value : Json)
    (existing : Option Json) (c : Nat) : Json × Nat :=
  match value with
  | .obj fields =>
    let r := normalizeCustomSectionFields genId fields (existingFieldsOf existing) c
    (.obj r.1, r.2)
  | v => (v, c)

/-- Normalize each element of a custom-sections list with no existing
entity, threading the id counter. -/
def normCustomSectionList (genId : Nat → String) :
    List Json → Nat → List Json × Nat
  | [], c => ([], c)
  | v :: vs, c =>
    let r1 := normalizeCustomSection genId v none c
    let r2 := normCustomSectionList genId vs r1.2
    (r1.1 :: r2.1, r2.2)

/-- `normalizeCustomSections`: map `normalizeCustomSection` (without
existing entity) over an array value; non-arrays pass through. -/
def normalizeCustomSections (genId : Nat → String) (value : Json) (c : Nat) :
    Json × Nat :=
  match value with
  | .arr vs =>
    let r := normCustomSectionList genId vs c
    (.arr r.1, r.2)
  | v => (v, c)

/-! ## Path-shape predicates and `normalizeOpValue` dispatch -/

/-- `/data/sections/<type>/items` (length 4). -/
def isSectionItemsArrayPath (segs : List String) : Bool :=
  segs.length == 4 && segs.getD 0 "" == "data" && segs.getD 1 "" == "sections" &&
    segs.getD 3 "" == "items"

/-- `/data/sections/<type>/items/<idx>` (length 5). -/
def isSectionItemPath (segs : List String) : Bool :=
  segs.length == 5 && segs.getD 0 "" == "data" && segs.getD 1 "" == "sections" &&
    segs.getD 3 "" == "items"

/-- `/data/customSections` (length 2). -/
def isCustomSectionsArrayPath (segs : List String) : Bool :=
  segs.length == 2 && segs.getD 0 "" == "data" && segs.getD 1 "" == "customSections"

/-- `/data/customSections/<idx>` (length 3). -/
def isCustomSectionPath (segs : List String) : Bool :=
  segs.length == 3 && segs.getD 0 "" == "data" && segs.getD 1 "" == "customSections"

/-- `/data/customSections/<idx>/items` (length 4). -/
def isCustomSectionItemsArrayPath (segs : List String) : Bool :=
  segs.length == 4 && segs.getD 0 "" == "data" && segs.getD 1 "" == "customSections" &&
    segs.getD 3 "" == "items"

/-- `/data/customSections/<idx>/items/<idx>` (length 5). -/
def isCustomSectionItemPath (segs : List String) : Bool :=
  segs.length == 5 && segs.getD 0 "" == "data" && segs.getD 1 "" == "customSections" &&
    segs.getD 3 "" == "items"

/-- `getCustomSectionType`: the `type` of the custom section at the given
index segment; a missing section is a missing target. -/
def getCustomSectionType (data : Json) (idxSeg : String) : Except PatchError String :=
  let sections := asArr (jGet data "customSections")
  match toArrayIndex idxSeg with
  | some i =>
    match sections.get? i with
    | some sec =>
      .ok (match jGet sec "type" with | some (.str s) => s | _ => "")
    | none => .error (.patchTargetNotFound ("/data/customSections/" ++ idxSeg))
  | none => .error (.patchTargetNotFound ("/data/customSections/" ++ idxSeg))

/-- `normalizeOpValue` restricted to its value payload: dispatch on the
resolved path shape; unmatched shapes leave the value untouched. -/
def normalizeValueAtPath (genId : Nat → String) (data : Json)
    (segs : List String) (value : Json) (existing : Option Json) (c : Nat) :
    Except PatchError (Json × Nat) :=
  if isSectionItemsArrayPath segs then
    .ok (normalizeItemsArray genId (segs.getD 2 "") value c)
  else if isSectionItemPath segs then
    .ok (normalizeItem genId (segs.getD 2 "") value existing c)
  else if isCustomSectionsArrayPath segs then
    .ok (normalizeCustomSections genId value c)
  else if isCustomSectionPath segs then
    .ok (normalizeCustomSection genId value existing c)
  else if isCustomSectionItemsArrayPath segs then do
    let ty ← getCustomSectionType data (segs.getD 2 "")
    .ok (normalizeItemsArray genId ty value c)
  else if isCustomSectionItemPath segs then do
    let ty ← getCustomSectionType data (segs.getD 2 "")
    .ok (normalizeItem genId ty value existing c)
  else .ok (value, c)

/-! ## Layout synchronizer (`normalizeLayout`) -/

/-- Built-in layout slot check (`allowedLayoutIds.has(id)`). -/
def isAllowedLayoutId (j : Json) : Bool :=
  match j with
  | .str s => allowedLayoutIds.contains s
  | _ => false

/-- The `id`s of `data.customSections` (absent ids are dropped). -/
def customSectionIds (data : Json) : List Json :=
  (asArr (jGet data "customSections")).filterMap (fun s => jGet s "id")

/-- Filter one layout list to allowed built-ins and live custom ids. -/
def pruneLayoutList (customIds : List Json) (l : List Json) : List Json :=
  l.filter (fun id => isAllowedLayoutId id || customIds.contains id)

/-- Prune a page's `main` and `sidebar` lists. -/
def prunePage (customIds : List Json) (page : Json) : Json :=
  let page :=
    match jGet page "main" with
    | some (.arr l) => setKey page "main" (.arr (pruneLayoutList customIds l))
    | _ => page
  match jGet page "sidebar" with
  | some (.arr l) => setKey page "sidebar" (.arr (pruneLayoutList customIds l))
  | _ => page

/-- The identifiers in a page's `main` list (empty when not an array). -/
def mainList (page : Json) : List Json :=
  match jGet page "main" with
  | some (.arr l) => l
  | _ => []

/-- The identifiers in a page's `sidebar` list (empty when not an array). -/
def sidebarList (page : Json) : List Json :=
  match jGet page "sidebar" with
  | some (.arr l) => l
  | _ => []

/-- All identifiers referenced by a page. -/
def pageEntries (page : Json) : List Json :=
  mainList page ++ sidebarList page

/-- Append newly attached ids to a page's `main` list. -/
def pushMain (page : Json) (ids : List Json) : Json :=
  match jGet page "main" with
  | some (.arr l) => setKey page "main" (.arr (l ++ ids))
  | _ => page

/-- Write a value along a chain of object keys. -/
def setIn (j : Json) (keys : List String) (v : Json) : Json :=
  match keys with
  | [] => v
  | k :: rest =>
    match j with
    | .obj fields =>
      .obj (objSet fields k (setIn ((objGet fields k).getD .null) rest v))
    | _ => j

/-- The pages of `data.metadata.layout.pages`, when present and an array
(the optional chaining `data.metadata?.layout?.pages`). -/
def layoutPages (data : Json) : Option (List Json) :=
  match jGet data "metadata" with
  | some m =>
    match jGet m "layout" with
    | some l =>
      match jGet l "pages" with
      | some (.arr pages) => some pages
      | _ => none
    | _ => none
  | _ => none

/-- The post-batch pages: every page pruned, and (when `addNew`) the
custom-section ids that are new relative to `originalIds` and unreferenced
by any page appended, in order, to the first page's `main`. -/
def layoutFinalPages (data : Json) (addNew : Bool) (originalIds : List Json)
    (pages : List Json) : List Json :=
  let customIds := customSectionIds data
  let pruned := pages.map (prunePage customIds)
  let referenced := pruned.flatMap pageEntries
  if addNew then
    let newIds := customIds.filter
      (fun i => !originalIds.contains i && !referenced.contains i)
    if newIds.isEmpty then pruned
    else
      match pruned with
      | [] => pruned
      | p0 :: rest => pushMain p0 newIds :: rest
  else pruned

/-- `normalizeLayout`: prune every page's `main`/`sidebar` to allowed ids,
then (when `addNew`) auto-attach the new unreferenced custom sections. -/
def normalizeLayout (data : Json) (addNew : Bool) (originalIds : List Json) : Json :=
  match layoutPages data with
  | some pages =>
    setIn data ["metadata", "layout", "pages"]
      (.arr (layoutFinalPages data addNew originalIds pages))
  | none => data

/-! ## The engine (`applyResumePatch`) -/

/-- Mutable per-batch state: the working clone, the two impact flags, and
the id-generation counter. -/
structure EngineState where
  next : Json
  touchesCustomSections : Bool
  touchesLayout : Bool
  counter : Nat
  deriving Repr, DecidableEq

/-- The `data` field of the working target. -/
def dataOf (next : Json) : Json :=
  (jGet next "data").getD (.obj [])

/-- `markPatchImpact`: raise the flags when the resolved path reaches
`data/customSections` or `data/metadata/layout`. -/
def markImpact (segs : List String) (st : EngineState) : EngineState :=
  { st with
    touchesCustomSections := st.touchesCustomSections ||
      (segs.getD 0 "" == "data" && segs.getD 1 "" == "customSections"),
    touchesLayout := st.touchesLayout ||
      (segs.getD 0 "" == "data" && segs.getD 1 "" == "metadata" &&
        segs.getD 2 "" == "layout") }

/-- `resolvePatchPath`: parse, validate, then resolve ids against the
current document's `data`. -/
def resolvePatchPath (path : String) (op : JsonPatchOp) (next : Json)
    (forFrom : Bool) : Except PatchError (List String) := do
  let segs ← parseJsonPointer path
  let _ ← validatePatchPath segs op path forFrom
  resolveById segs (dataOf next)

/-- One iteration of the operation loop in `applyResumePatch`: `move` is
resolve-from / read / remove / resolve-path-on-mutated-doc / normalize /
add, `copy` is the same without the remove, `test` checks without
normalizing, and `add`/`replace`/`remove` resolve, normalize (replace
feeding the pre-replace value), and mutate. -/
def applyPatchStep (genId : Nat → String) (st : EngineState) (op : JsonPatchOp) :
    Except PatchError EngineState := do
  match op with
  | .move fromPath path => do
    let fromSegs ← resolvePatchPath fromPath op st.next true
    let st := markImpact fromSegs st
    let value ← getValueAtPath st.next fromSegs fromPath
    let next1 ← mutateAtSegs st.next fromSegs fromPath (fun p k => applyRemove p k)
    let st := { st with next := next1 }
    let pathSegs ← resolvePatchPath path op st.next false
    let st := markImpact pathSegs st
    let r ← normalizeValueAtPath genId (dataOf st.next) pathSegs value none st.counter
    let next2 ← mutateAtSegs st.next pathSegs path (fun p k => applyAdd p k r.1)
    .ok { st with next := next2, counter := r.2 }
  | .copy fromPath path => do
    let fromSegs ← resolvePatchPath fromPath op st.next false
    let value ← getValueAtPath st.next fromSegs fromPath
    let pathSegs ← resolvePatchPath path op st.next false
    let st := markImpact pathSegs st
    let r ← normalizeValueAtPath genId (dataOf st.next) pathSegs value none st.counter
    let next2 ← mutateAtSegs st.next pathSegs path (fun p k => applyAdd p k r.1)
    .ok { st with next := next2, counter := r.2 }
  | .test path v => do
    let pathSegs ← resolvePatchPath path op st.next false
    let st := markImpact pathSegs st
    let next' ← mutateAtSegs st.next pathSegs path (fun p k => applyTest p k v)
    .ok { st with next := next' }
  | .add path v => do
    let pathSegs ← resolvePatchPath path op st.next false
    let st := markImpact pathSegs st
    let r ← normalizeValueAtPath genId (dataOf st.next) pathSegs v none st.counter
    let next' ← mutateAtSegs st.next pathSegs path (fun p k => applyAdd p k r.1)
    .ok { st with next := next', counter := r.2 }
  | .replace path v => do
    let pathSegs ← resolvePatchPath path op st.next false
    let st := markImpact pathSegs st
    let existing := safeGetValueAtPath st.next pathSegs
    let r ← normalizeValueAtPath genId (dataOf st.next) pathSegs v existing st.counter
    let next' ← mutateAtSegs st.next pathSegs path (fun p k => applyReplace p k r.1)
    .ok { st with next := next', counter := r.2 }
  | .remove path => do
    let pathSegs ← resolvePatchPath path op st.next false
    let st := markImpact pathSegs st
    let next' ← mutateAtSegs st.next pathSegs path (fun p k => applyRemove p k)
    .ok { st with next := next' }

/-- Replace the `data` field of the working target. -/
def setData (next : Json) (d : Json) : Json :=
  match next with
  | .obj fields => .obj (objSet fields "data" d)
  | _ => next

/-- Everything `applyResumePatch` does before the schema gate: run the
operation loop over the cloned target, then synchronize the layout (the
auto-attach step fires only when the batch touched `customSections` but
not `metadata.layout`). -/
def buildPatchedTarget (genId : Nat → String) (target : Json)
    (patch : List JsonPatchOp) : Except PatchError Json := do
  let originalIds := customSectionIds (dataOf target)
  let stF ← patch.foldlM (applyPatchStep genId) (EngineState.mk target false false 0)
  let data' := normalizeLayout (dataOf stF.next)
    (stF.touchesCustomSections && !stF.touchesLayout) originalIds
  .ok (setData stF.next data')

/-- `applyResumePatch`: apply the batch to an independent copy of the
caller's target and gate the result behind the schema validator; a
validation failure becomes a batch-level `InvalidPatch` error carrying
every issue as a `(jsonPointerPath, message)` pair. -/
def applyResumePatch (genId : Nat → String)
    (validate : Json → Except (List (List String × String)) Json)
    (target : Json) (patch : List JsonPatchOp) : Except PatchError Json :=
  match buildPatchedTarget genId target patch with
  | .error e => .error e
  | .ok next =>
    match validate next with
    | .ok parsed => .ok parsed
    | .error issues =>
      .error (.invalidPatch (issues.map (fun i => (toJsonPointer i.1, i.2))))

/-! ## Lemmas about the object primitives -/

theorem except_bind_ok {ε α β : Type} (a : α) (f : α → Except ε β) :
    ((Except.ok a : Except ε α) >>= f) = f a := rfl

theorem except_bind_error {ε α β : Type} (e : ε) (f : α → Except ε β) :
    ((Except.error e : Except ε α) >>= f) = Except.error e := rfl

theorem objGet_objSet_self (fields : List (String × Json)) (k : String) (v : Json) :
    objGet (objSet fields k v) k = some v := by
  induction fields with
  | nil => simp [objSet, objGet]
  | cons p rest ih =>
    obtain ⟨k0, v0⟩ := p
    by_cases h : k0 = k
    · simp [objSet, objGet, h]
    · simp [objSet, objGet, h, ih]

theorem objGet_objSet_ne (fields : List (String × Json)) (k k' : String) (v : Json)
    (h : k' ≠ k) : objGet (objSet fields k v) k' = objGet fields k' := by
  have hk : ¬k = k' := fun hh => h hh.symm
  induction fields with
  | nil => simp [objSet, objGet, hk]
  | cons p rest ih =>
    obtain ⟨k0, v0⟩ := p
    by_cases h0 : k0 = k
    · subst h0
      simp [objSet, objGet, hk]
    · simp [objSet, objGet, h0, ih]

theorem objSet_objGet_self (fields : List (String × Json)) (k : String) (v : Json)
    (h : objGet fields k = some v) : objSet fields k v = fields := by
  induction fields with
  | nil => simp [objGet] at h
  | cons p rest ih =>
    obtain ⟨k0, v0⟩ := p
    by_cases h0 : k0 = k
    · subst h0
      simp [objGet] at h
      simp [objSet, h]
    · simp [objGet, h0] at h
      simp [objSet, h0, ih h]

theorem objGet_objSet_of_absent (fields : List (String × Json)) (key k : String)
    (w v : Json) (habs : objGet fields key = none) (h : objGet fields k = some v) :
    objGet (objSet fields key w) k = some v := by
  by_cases hk : k = key
  · subst hk; rw [h] at habs; cases habs
  · rw [objGet_objSet_ne fields key k w hk]; exact h

theorem list_set_get?_self {α : Type} (xs : List α) (i : Nat) (v : α)
    (h : xs.get? i = some v) : xs.set i v = xs := by
  induction xs generalizing i with
  | nil => simp [List.get?] at h
  | cons x rest ih =>
    cases i with
    | zero => simp [List.get?] at h; simp [List.set, h]
    | succ j =>
      simp only [List.get?] at h
      simp [List.set, ih j h]

/-! ## Mutation-free walks -/

theorem mutateParent_preserving (f : Json → Except PatchError Json)
    (hf : ∀ p q, f p = .ok q → q = p) :
    ∀ (pre : List String) (current : Json) (path : String) (r : Json),
      mutateParent current pre path f = .ok r → r = current := by
  intro pre
  induction pre with
  | nil =>
    intro current path r h
    exact hf _ _ h
  | cons seg rest ih =>
    intro current path r h
    unfold mutateParent at h
    split at h
    · -- array parent
      rename_i xs
      split at h
      · rename_i i hidx
        split at h
        · rename_i child hget
          cases hrec : mutateParent child rest path f with
          | error e => rw [hrec, except_bind_error] at h; cases h
          | ok child' =>
            rw [hrec, except_bind_ok] at h
            cases h
            rw [ih child path child' hrec, list_set_get?_self xs i child hget]
        · cases h
      · cases h
    · -- object parent
      rename_i fields
      split at h
      · rename_i child hget
        cases hrec : mutateParent child rest path f with
        | error e => rw [hrec, except_bind_error] at h; cases h
        | ok child' =>
          rw [hrec, except_bind_ok] at h
          cases h
          rw [ih child path child' hrec, objSet_objGet_self fields seg child hget]
      · cases h
    · cases h

theorem applyTest_ok_eq (parent : Json) (key : String) (value q : Json)
    (h : applyTest parent key value = .ok q) : q = parent := by
  unfold applyTest at h
  split at h
  · split at h
    · split at h
      · split at h
        · cases h; rfl
        · cases h
      · cases h
    · cases h
  · split at h
    · split at h
      · cases h; rfl
      · cases h
    · cases h
  · cases h

theorem mutateAtSegs_test_preserving (root : Json) (segs : List String)
    (path : String) (value : Json) (r : Json)
    (h : mutateAtSegs root segs path (fun p k => applyTest p k value) = .ok r) :
    r = root := by
  unfold mutateAtSegs at h
  cases segs with
  | nil => cases h
  | cons s ss =>
    exact mutateParent_preserving _ (fun p q hp => applyTest_ok_eq p _ value q hp)
      _ root path r h

/-! ## Lemmas about the normalizer's fill steps -/

theorem fillKey_get_ne (key k : String) (v : Json) (f : List (String × Json))
    (h : k ≠ key) : objGet (fillKey key v f) k = objGet f k := by
  unfold fillKey
  split
  · rfl
  · exact objGet_objSet_ne f key k v h

theorem fillKey_absent (key : String) (v : Json) (f : List (String × Json))
    (h : objGet f key = none) : objGet (fillKey key v f) key = some v := by
  simp only [fillKey, h, Option.isSome_none, Bool.false_eq_true, if_false]
  exact objGet_objSet_self f key v

theorem fillKey_present (key : String) (v : Json) (f : List (String × Json))
    (w : Json) (h : objGet f key = some w) : fillKey key v f = f := by
  simp [fillKey, h]

theorem fillKey_mono (key k : String) (v w : Json) (f : List (String × Json))
    (h : objGet f k = some w) : objGet (fillKey key v f) k = some w := by
  by_cases hk : k = key
  · rw [hk] at h ⊢; rw [fillKey_present key v f w h]; exact h
  · rw [fillKey_get_ne key k v f hk]; exact h

theorem fillKeyWhen_get_ne (m : Bool) (key k : String) (v : Json)
    (f : List (String × Json)) (h : k ≠ key) :
    objGet (fillKeyWhen m key v f) k = objGet f k := by
  unfold fillKeyWhen
  split
  · exact objGet_objSet_ne f key k v h
  · rfl

theorem fillKeyWhen_true_absent (key : String) (v : Json) (f : List (String × Json))
    (h : objGet f key = none) : objGet (fillKeyWhen true key v f) key = some v := by
  simp only [fillKeyWhen, h, Option.isNone_none, Bool.and_self, if_true]
  exact objGet_objSet_self f key v

theorem fillKeyWhen_false (key : String) (v : Json) (f : List (String × Json)) :
    fillKeyWhen false key v f = f := by
  simp [fillKeyWhen]

theorem fillKeyWhen_present (m : Bool) (key : String) (v : Json)
    (f : List (String × Json)) (w : Json) (h : objGet f key = some w) :
    fillKeyWhen m key v f = f := by
  simp [fillKeyWhen, h]

theorem fillKeyWhen_mono (m : Bool) (key k : String) (v w : Json)
    (f : List (String × Json)) (h : objGet f k = some w) :
    objGet (fillKeyWhen m key v f) k = some w := by
  by_cases hk : k = key
  · rw [hk] at h ⊢; rw [fillKeyWhen_present m key v f w h]; exact h
  · rw [fillKeyWhen_get_ne m key k v f hk]; exact h

theorem fillType_get_ne (ef : Option (List (String × Json)))
    (f : List (String × Json)) (k : String) (h : k ≠ "type") :
    objGet (fillType ef f) k = objGet f k := by
  unfold fillType
  split
  · rfl
  · split
    · exact objGet_objSet_ne f "type" k _ h
    · rfl

theorem fillType_absent_some (ef : Option (List (String × Json)))
    (f : List (String × Json)) (tv : Json) (h : objGet f "type" = none)
    (he : exGet ef "type" = some tv) :
    objGet (fillType ef f) "type" = some tv := by
  simp only [fillType, h, Option.isSome_none, Bool.false_eq_true, if_false, he]
  exact objGet_objSet_self f "type" tv

theorem fillType_present (ef : Option (List (String × Json)))
    (f : List (String × Json)) (w : Json) (h : objGet f "type" = some w) :
    fillType ef f = f := by
  simp [fillType, h]

theorem fillType_mono (ef : Option (List (String × Json)))
    (f : List (String × Json)) (k : String) (w : Json)
    (h : objGet f k = some w) : objGet (fillType ef f) k = some w := by
  by_cases hk : k = "type"
  · subst hk; rw [fillType_present ef f w h]; exact h
  · rw [fillType_get_ne ef f k hk]; exact h

theorem fillId_get_ne (genId : Nat → String) (f : List (String × Json))
    (ef : Option (List (String × Json))) (c : Nat) (k : String) (h : k ≠ "id") :
    objGet (fillId genId f ef c).1 k = objGet f k := by
  unfold fillId
  split
  · rfl
  · split
    · exact objGet_objSet_ne f "id" k _ h
    · exact objGet_objSet_ne f "id" k _ h
    · exact objGet_objSet_ne f "id" k _ h

theorem fillId_mono (genId : Nat → String) (f : List (String × Json))
    (ef : Option (List (String × Json))) (c : Nat) (k : String) (w : Json)
    (h : objGet f k = some w) : objGet (fillId genId f ef c).1 k = some w := by
  by_cases hk : k = "id"
  · rw [hk] at h ⊢
    unfold fillId
    simp only [h, Option.isSome_some, if_true]
  · rw [fillId_get_ne genId f ef c k hk]; exact h

theorem fillId_absent_none (genId : Nat → String) (f : List (String × Json))
    (ef : Option (List (String × Json))) (c : Nat)
    (h : objGet f "id" = none) (he : exGet ef "id" = none) :
    fillId genId f ef c = (objSet f "id" (.str (genId c)), c + 1) := by
  simp [fillId, h, he]

theorem fillId_absent_some (genId : Nat → String) (f : List (String × Json))
    (ef : Option (List (String × Json))) (c : Nat) (idv : Json)
    (h : objGet f "id" = none) (he : exGet ef "id" = some idv)
    (hnn : idv ≠ .null) :
    fillId genId f ef c = (objSet f "id" idv, c) := by
  simp only [fillId, h, Option.isSome_none, Bool.false_eq_true, if_false, he]

theorem fillId_present (genId : Nat → String) (f : List (String × Json))
    (ef : Option (List (String × Json))) (c : Nat) (w : Json)
    (h : objGet f "id" = some w) : fillId genId f ef c = (f, c) := by
  simp [fillId, h]

/-! ## Concrete fixtures -/

/-- A deterministic id generator standing in for `generateId`. -/
def sampleGenId : Nat → String := fun n => "gen" ++ toString n

/-- Modelled from the spec: the schema gate (`resumeDataSchema`) is an
external collaborator consumed as a black box
(`validate(document) -> Ok(parsed) | Err(issues[])`); this instance
accepts every document and returns it unchanged. -/
def acceptAll : Json → Except (List (List String × String)) Json := fun j => .ok j

/-- A page layout object with the given `main` and `sidebar` slot names. -/
def samplePage (main sidebar : List String) : Json :=
  .obj [("fullWidth", .bool false), ("main", .arr (main.map .str)),
        ("sidebar", .arr (sidebar.map .str))]

/-- A minimal patch target with the given experience items, custom
sections, and layout pages. -/
def sampleTarget (items : List Json) (cs : List Json) (pages : List Json) : Json :=
  .obj [("name", .str "Test"), ("slug", .str "test"), ("tags", .arr []),
        ("isPublic", .bool false),
        ("data", .obj [
          ("sections", .obj [
            ("experience", .obj [("title", .str "Experience"), ("items", .arr items)]),
            ("skills", .obj [("title", .str "Skills"), ("items", .arr [])])]),
          ("customSections", .arr cs),
          ("metadata", .obj [("layout", .obj [("pages", .arr pages)])])])]

/-- A fully normalized experience item with the given id and company. -/
def expItem (idv company : String) : Json :=
  .obj [("id", .str idv), ("hidden", .bool false), ("company", .str company),
        ("position", .str "Engineer"), ("website", defaultWebsite)]

/-- A fully normalized experience item with the given id, company, and
position. -/
def expItemP (idv company pos : String) : Json :=
  .obj [("id", .str idv), ("hidden", .bool false), ("company", .str company),
        ("position", .str pos), ("website", defaultWebsite)]

/-! ## C8 — `test` compares raw deep equality and never mutates -/

/-- C8: for every `test` operation the comparison is deep structural
equality between the raw current value at the resolved target and the
operation's literal value (no normalization of either side, as witnessed
by a conflict against a payload that omits only normalizer-filled fields);
a mismatch raises `PatchConflict`, and a succeeding `test` step leaves the
document and the id counter untouched. -/
theorem C8_test_raw_deep_equality :
    (∀ (genId : Nat → String) (st : EngineState) (path : String) (v : Json)
       (st' : EngineState),
       applyPatchStep genId st (.test path v) = .ok st' →
       st'.next = st.next ∧ st'.counter = st.counter) ∧
    (∀ (fields : List (String × Json)) (key : String) (cur v : Json),
       objGet fields key = some cur →
       (deepEqual cur v = false →
         applyTest (.obj fields) key v = .error (.patchConflict key)) ∧
       (deepEqual cur v = true →
         applyTest (.obj fields) key v = .ok (.obj fields))) ∧
    (∀ (xs : List Json) (key : String) (i : Nat) (cur v : Json),
       toArrayIndex key = some i → xs.get? i = some cur →
       (deepEqual cur v = false →
         applyTest (.arr xs) key v = .error (.patchConflict key)) ∧
       (deepEqual cur v = true →
         applyTest (.arr xs) key v = .ok (.arr xs))) ∧
    applyResumePatch sampleGenId acceptAll
      (sampleTarget [expItem "a" "A"] [] [samplePage ["summary"] []])
      [.test "/data/sections/experience/items/0"
        (.obj [("id", .str "a"), ("hidden", .bool false), ("company", .str "A"),
               ("position", .str "Engineer")])] =
      .error (.patchConflict "0") ∧
    applyResumePatch sampleGenId acceptAll
      (sampleTarget [expItem "a" "A"] [] [samplePage ["summary"] []])
      [.test "/data/sections/experience/items/0" (expItem "a" "A")] =
      .ok (sampleTarget [expItem "a" "A"] [] [samplePage ["summary"] []]) := by
  refine ⟨?_, ?_, ?_, by decide, by decide⟩
  · intro genId st path v st' h
    simp only [applyPatchStep] at h
    cases hres : resolvePatchPath path (.test path v) st.next false with
    | error e => rw [hres, except_bind_error] at h; cases h
    | ok segs =>
      rw [hres, except_bind_ok] at h
      cases hmut : mutateAtSegs (markImpact segs st).next segs path
          (fun p k => applyTest p k v) with
      | error e => rw [hmut, except_bind_error] at h; cases h
      | ok next' =>
        rw [hmut, except_bind_ok] at h
        cases h
        refine ⟨?_, rfl⟩
        have : next' = (markImpact segs st).next :=
          mutateAtSegs_test_preserving _ _ _ _ _ hmut
        simpa [markImpact] using this
  · intro fields key cur v hget
    constructor
    · intro hde
      simp only [applyTest, hget, hde]
      rfl
    · intro hde
      simp only [applyTest, hget, hde]
      rfl
  · intro xs key i cur v hidx hget
    constructor
    · intro hde
      simp only [applyTest, hidx, hget, hde]
      rfl
    · intro hde
      simp only [applyTest, hidx, hget, hde]
      rfl

/-- Witness for C8: the no-mutation clause applied to a concrete
successful `test` step, and the object-level conflict clause applied to a
concrete mismatching comparison. -/
theorem C8_test_raw_deep_equality_witness :
    (applyPatchStep sampleGenId
        (EngineState.mk (sampleTarget [expItem "a" "A"] [] [samplePage ["summary"] []])
          false false 0)
        (.test "/data/sections/experience/items/0" (expItem "a" "A"))).map
        (fun st' => st'.next) =
      .ok (sampleTarget [expItem "a" "A"] [] [samplePage ["summary"] []]) ∧
    applyTest (.obj [("x", .str "old")]) "x" (.str "new") =
      .error (.patchConflict "x") := by
  constructor
  · have h :
        applyPatchStep sampleGenId
          (EngineState.mk (sampleTarget [expItem "a" "A"] [] [samplePage ["summary"] []])
            false false 0)
          (.test "/data/sections/experience/items/0" (expItem "a" "A")) =
          .ok (EngineState.mk (sampleTarget [expItem "a" "A"] [] [samplePage ["summary"] []])
            false false 0) := by decide
    have h2 := (C8_test_raw_deep_equality.1 sampleGenId
      (EngineState.mk (sampleTarget [expItem "a" "A"] [] [samplePage ["summary"] []])
        false false 0)
      "/data/sections/experience/items/0" (expItem "a" "A") _ h).1
    rw [h]
    exact congrArg Except.ok h2
  · exact (C8_test_raw_deep_equality.2.1 [("x", .str "old")] "x" (.str "old")
      (.str "new") (by decide)).1 (by decide)

/-! ## C2 — identifier resolution in items positions -/

/-- C2: a bare all-digits segment is always treated as a literal array
index and never matched against entity ids (so for an item with id
`"123"`, the bare segment `123` addresses array index 123 and fails with
`PatchTargetNotFound` when no such index exists); the explicit `id/<value>`
form collapses the two segments into the index of the entity whose id
equals `<value>` regardless of position, fails with `InvalidPatchPath`
when the value after the literal `id` is missing, and with
`PatchTargetNotFound` when no entity carries the id. -/
theorem C2_identifier_resolution :
    (∀ (segs : List String) (idx : Nat) (items : List Json),
       isArrayIndex (segs.getD idx "") = true →
       resolveItemsById segs idx items = .ok segs) ∧
    (∀ (segs : List String) (idx : Nat) (items : List Json) (idv : String) (i : Nat),
       segs.getD idx "" = "id" → segs.get? (idx + 1) = some idv → idv ≠ "" →
       findIdIndex items idv = some i →
       resolveItemsById segs idx items =
         .ok (segs.take idx ++ [toString i] ++ segs.drop (idx + 2))) ∧
    (∀ (segs : List String) (idx : Nat) (items : List Json),
       segs.getD idx "" = "id" → segs.get? (idx + 1) = none →
       resolveItemsById segs idx items =
         .error (.invalidPatchPath (toJsonPointer segs))) ∧
    (∀ (segs : List String) (idx : Nat) (items : List Json) (idv : String),
       segs.getD idx "" = "id" → segs.get? (idx + 1) = some idv → idv ≠ "" →
       findIdIndex items idv = none →
       resolveItemsById segs idx items =
         .error (.patchTargetNotFound (toJsonPointer segs))) ∧
    applyResumePatch sampleGenId acceptAll
      (sampleTarget [expItemP "123" "Acme" "Engineer"] [] [samplePage ["summary"] []])
      [.replace "/data/sections/experience/items/123/position" (.str "Lead")] =
      .error (.patchTargetNotFound "/data/sections/experience/items/123/position") ∧
    applyResumePatch sampleGenId acceptAll
      (sampleTarget [expItemP "123" "Acme" "Engineer"] [] [samplePage ["summary"] []])
      [.replace "/data/sections/experience/items/id/123/position" (.str "Lead")] =
      .ok (sampleTarget [expItemP "123" "Acme" "Lead"] [] [samplePage ["summary"] []]) ∧
    applyResumePatch sampleGenId acceptAll
      (sampleTarget [expItemP "123" "Acme" "Engineer"] [] [samplePage ["summary"] []])
      [.remove "/data/sections/experience/items/id"] =
      .error (.invalidPatchPath "/data/sections/experience/items/id") := by
  refine ⟨?_, ?_, ?_, ?_, by decide, by decide, by decide⟩
  · intro segs idx items hidx
    have hne : segs.getD idx "" ≠ "id" := by
      intro hh; rw [hh] at hidx; exact absurd hidx (by decide)
    have hsr : shouldResolveId (segs.getD idx "") = false := by
      unfold shouldResolveId
      rw [hidx]
      simp
    simp only [List.getD_eq_getElem?_getD] at hidx hne hsr
    simp [resolveItemsById, hne, hsr]
  · intro segs idx items idv i hseg hnext hne hfind
    simp only [List.getD_eq_getElem?_getD] at hseg
    simp only [List.get?_eq_getElem?] at hnext
    simp [resolveItemsById, hseg, hnext, hne, hfind]
  · intro segs idx items hseg hnext
    simp only [List.getD_eq_getElem?_getD] at hseg
    simp only [List.get?_eq_getElem?] at hnext
    simp [resolveItemsById, hseg, hnext]
  · intro segs idx items idv hseg hnext hne hfind
    simp only [List.getD_eq_getElem?_getD] at hseg
    simp only [List.get?_eq_getElem?] at hnext
    simp [resolveItemsById, hseg, hnext, hne, hfind]

/-- Witness for C2: the all-digits rule applied to the bare segment `123`
against a singleton item list whose entity id is `"123"`, and the explicit
`id/123` rule collapsing to index `0` on the same list. -/
theorem C2_identifier_resolution_witness :
    resolveItemsById ["data", "sections", "experience", "items", "123", "position"] 4
      [expItemP "123" "Acme" "Engineer"] =
      .ok ["data", "sections", "experience", "items", "123", "position"] ∧
    resolveItemsById ["data", "sections", "experience", "items", "id", "123", "position"] 4
      [expItemP "123" "Acme" "Engineer"] =
      .ok ["data", "sections", "experience", "items", "0", "position"] := by
  constructor
  · exact C2_identifier_resolution.1
      ["data", "sections", "experience", "items", "123", "position"] 4
      [expItemP "123" "Acme" "Engineer"] (by decide)
  · exact C2_identifier_resolution.2.1
      ["data", "sections", "experience", "items", "id", "123", "position"] 4
      [expItemP "123" "Acme" "Engineer"] "123" 0 (by decide) (by decide)
      (by decide) (by decide)

/-! ## C5 — add fills type defaults and passes unknown fields through -/

/-- A minimal patch target carrying its skills items (experience empty). -/
def sampleTargetSk (skItems : List Json) (pages : List Json) : Json :=
  .obj [("name", .str "Test"), ("slug", .str "test"), ("tags", .arr []),
        ("isPublic", .bool false),
        ("data", .obj [
          ("sections", .obj [
            ("experience", .obj [("title", .str "Experience"), ("items", .arr [])]),
            ("skills", .obj [("title", .str "Skills"), ("items", .arr skItems)])]),
          ("customSections", .arr []),
          ("metadata", .obj [("layout", .obj [("pages", .arr pages)])])])]

/-- C5: normalizing an added item that omits `id`, `hidden`, `website`,
`icon` yields a generated `id`, `hidden = false`, the empty `website`
object on the 9 website-bearing section types and the empty `icon` string
on the 3 icon-bearing ones, consumes one generated id, and passes every
supplied field through verbatim; the websites/icons sets are subsets of
the 12 section types with 9 and 3 members; end-to-end, adding a
narrative-only experience (resp. skills) item produces exactly the
defaulted entity. -/
theorem C5_add_item_defaults :
    (∀ (genId : Nat → String) (ty : String) (fields : List (String × Json)) (c : Nat),
       objGet fields "id" = none → objGet fields "hidden" = none →
       objGet fields "website" = none → objGet fields "icon" = none →
       objGet (normalizeItemFields genId ty fields none c).1 "id" =
         some (.str (genId c)) ∧
       objGet (normalizeItemFields genId ty fields none c).1 "hidden" =
         some (.bool false) ∧
       (sectionsWithWebsite.contains ty = true →
         objGet (normalizeItemFields genId ty fields none c).1 "website" =
           some defaultWebsite) ∧
       (sectionsWithIcon.contains ty = true →
         objGet (normalizeItemFields genId ty fields none c).1 "icon" =
           some (.str "")) ∧
       (∀ (k : String) (v : Json), objGet fields k = some v →
         objGet (normalizeItemFields genId ty fields none c).1 k = some v) ∧
       (normalizeItemFields genId ty fields none c).2 = c + 1) ∧
    (sectionTypes.length = 12 ∧ sectionsWithWebsite.length = 9 ∧
      sectionsWithIcon.length = 3 ∧
      sectionsWithWebsite.all (fun t => sectionTypes.contains t) = true ∧
      sectionsWithIcon.all (fun t => sectionTypes.contains t) = true) ∧
    applyResumePatch sampleGenId acceptAll
      (sampleTarget [] [] [samplePage ["summary"] []])
      [.add "/data/sections/experience/items/-"
        (.obj [("company", .str "Acme"), ("position", .str "Engineer")])] =
      .ok (sampleTarget
        [.obj [("company", .str "Acme"), ("position", .str "Engineer"),
               ("id", .str "gen0"), ("hidden", .bool false),
               ("website", defaultWebsite)]]
        [] [samplePage ["summary"] []]) ∧
    applyResumePatch sampleGenId acceptAll
      (sampleTargetSk [] [samplePage ["summary"] []])
      [.add "/data/sections/skills/items/-"
        (.obj [("name", .str "TypeScript"), ("level", .num 3)])] =
      .ok (sampleTargetSk
        [.obj [("name", .str "TypeScript"), ("level", .num 3),
               ("id", .str "gen0"), ("hidden", .bool false), ("icon", .str "")]]
        [samplePage ["summary"] []]) := by
  refine ⟨?_, by decide, by decide, by decide⟩
  intro genId ty fields c hid hh hw hi
  have hfill := fillId_absent_none genId fields none c hid rfl
  have h1 : (fillId genId fields none c).1 = objSet fields "id" (.str (genId c)) := by
    rw [hfill]
  have h2 : (fillId genId fields none c).2 = c + 1 := by rw [hfill]
  have g1 : objGet (objSet fields "id" (.str (genId c))) "hidden" = none := by
    rw [objGet_objSet_ne fields "id" "hidden" _ (by decide)]; exact hh
  refine ⟨?_, ?_, ?_, ?_, ?_, ?_⟩
  · dsimp only [normalizeItemFields]
    rw [fillKeyWhen_get_ne _ _ _ _ _ (by decide),
        fillKeyWhen_get_ne _ _ _ _ _ (by decide),
        fillKey_get_ne _ _ _ _ (by decide), h1]
    exact objGet_objSet_self fields "id" (.str (genId c))
  · dsimp only [normalizeItemFields]
    rw [fillKeyWhen_get_ne _ _ _ _ _ (by decide),
        fillKeyWhen_get_ne _ _ _ _ _ (by decide), h1]
    exact fillKey_absent "hidden" _ _ g1
  · intro hW
    dsimp only [normalizeItemFields]
    rw [fillKeyWhen_get_ne _ _ _ _ _ (by decide), hW]
    have habs : objGet (fillKey "hidden"
        (jsCoalesce (exGet none "hidden") (.bool false))
        (fillId genId fields none c).1) "website" = none := by
      rw [fillKey_get_ne _ _ _ _ (by decide), h1,
          objGet_objSet_ne fields "id" "website" _ (by decide)]
      exact hw
    exact fillKeyWhen_true_absent "website" _ _ habs
  · intro hI
    dsimp only [normalizeItemFields]
    rw [hI]
    have habs : objGet (fillKeyWhen (sectionsWithWebsite.contains ty) "website"
        (jsCoalesce (exGet none "website") defaultWebsite)
        (fillKey "hidden" (jsCoalesce (exGet none "hidden") (.bool false))
          (fillId genId fields none c).1)) "icon" = none := by
      rw [fillKeyWhen_get_ne _ _ _ _ _ (by decide),
          fillKey_get_ne _ _ _ _ (by decide), h1,
          objGet_objSet_ne fields "id" "icon" _ (by decide)]
      exact hi
    exact fillKeyWhen_true_absent "icon" _ _ habs
  · intro k v hkv
    dsimp only [normalizeItemFields]
    have s1 : objGet (fillId genId fields none c).1 k = some v :=
      fillId_mono genId fields none c k v hkv
    exact fillKeyWhen_mono _ _ _ _ _ _ (fillKeyWhen_mono _ _ _ _ _ _
      (fillKey_mono _ _ _ _ _ s1))
  · dsimp only [normalizeItemFields]
    exact h2

/-- Witness for C5: the defaulting clause applied to a concrete
narrative-only profiles payload (profiles declares both `website` and
`icon`). -/
theorem C5_add_item_defaults_witness :
    objGet (normalizeItemFields sampleGenId "profiles"
      [("network", .str "GitHub")] none 0).1 "id" = some (.str "gen0") ∧
    objGet (normalizeItemFields sampleGenId "profiles"
      [("network", .str "GitHub")] none 0).1 "website" = some defaultWebsite ∧
    objGet (normalizeItemFields sampleGenId "profiles"
      [("network", .str "GitHub")] none 0).1 "network" = some (.str "GitHub") := by
  have h := C5_add_item_defaults.1 sampleGenId "profiles"
    [("network", .str "GitHub")] 0 (by decide) (by decide) (by decide) (by decide)
  exact ⟨h.1, h.2.2.1 (by decide), h.2.2.2.2.1 "network" (.str "GitHub") (by decide)⟩

/-! ## C4 — replace fills omitted fields from the pre-replace entity -/

theorem jsCoalesce_some_ne_null (v d : Json) (h : v ≠ .null) :
    jsCoalesce (some v) d = v := by
  cases v with
  | null => exact absurd rfl h
  | bool b => rfl
  | num n => rfl
  | str s => rfl
  | arr l => rfl
  | obj l => rfl

theorem exGet_some (ef : List (String × Json)) (k : String) :
    exGet (some ef) k = objGet ef k := rfl

/-- An item that already carries all four normalizer-managed keys. -/
def itemFullyKeyed (it : Json) : Bool :=
  match it with
  | .obj f =>
    (objGet f "id").isSome && (objGet f "hidden").isSome &&
      (objGet f "website").isSome && (objGet f "icon").isSome
  | _ => true

theorem normalizeItem_fixed (genId : Nat → String) (ty : String) (it : Json)
    (c : Nat) (h : itemFullyKeyed it = true) :
    normalizeItem genId ty it none c = (it, c) := by
  cases it with
  | obj f =>
    simp only [itemFullyKeyed, Bool.and_eq_true, Option.isSome_iff_exists] at h
    obtain ⟨⟨⟨⟨w1, e1⟩, w2, e2⟩, w3, e3⟩, w4, e4⟩ := h
    simp only [normalizeItem, normalizeItemFields]
    rw [fillId_present genId f _ c w1 e1]
    rw [fillKey_present "hidden" _ f w2 e2]
    rw [fillKeyWhen_present _ "website" _ f w3 e3]
    rw [fillKeyWhen_present _ "icon" _ f w4 e4]
  | null => rfl
  | bool b => rfl
  | num n => rfl
  | str s => rfl
  | arr l => rfl

theorem normItemList_fixed (genId : Nat → String) (ty : String) (its : List Json)
    (h : ∀ it ∈ its, itemFullyKeyed it = true) :
    ∀ c, normItemList genId ty its c = (its, c) := by
  induction its with
  | nil => intro c; rfl
  | cons it rest ih =>
    intro c
    simp only [normItemList]
    rw [normalizeItem_fixed genId ty it c (h it (by simp))]
    rw [ih (fun x hx => h x (by simp [hx])) c]

/-- Reading any key other than `items` skips the final item-normalization
step of `normalizeCustomSectionFields`. -/
theorem ncsf_get_of_ne_items (genId : Nat → String)
    (fields : List (String × Json)) (ef : Option (List (String × Json)))
    (c : Nat) (k : String) (h : k ≠ "items") :
    objGet (normalizeCustomSectionFields genId fields ef c).1 k =
      objGet (fillKey "items" (jsCoalesce (exGet ef "items") (.arr []))
        (fillType ef
          (fillKey "title" (jsCoalesce (exGet ef "title") (.str ""))
            (fillKey "columns" (jsCoalesce (exGet ef "columns") (.num 1))
              (fillKey "hidden" (jsCoalesce (exGet ef "hidden") (.bool false))
                (fillId genId fields ef c).1))))) k := by
  dsimp only [normalizeCustomSectionFields]
  split
  · exact objGet_objSet_ne _ "items" k _ h
  · rfl

/-- C4: a `replace` that addresses a single section item or custom
section normalizes its payload against the pre-replace entity: an omitted
`id` or `hidden` takes the existing entity's value, an omitted `website` /
`icon` (on declaring section types) takes the existing entity's value, and
for a custom section an omitted `title`, `columns`, `type`, or `items`
takes the existing section's value; end-to-end, replacing an item by id
with a payload omitting `id` and `hidden` keeps the pre-replace `id` and
`hidden`, and replacing a custom section by index with only a new title
keeps its `id`, `hidden`, `columns`, `type`, and `items`. -/
theorem C4_replace_fills_from_existing :
    (∀ (genId : Nat → String) (ty : String)
       (fields efields : List (String × Json)) (c : Nat) (idv : Json),
       objGet fields "id" = none → objGet efields "id" = some idv → idv ≠ .null →
       objGet (normalizeItemFields genId ty fields (some efields) c).1 "id" =
         some idv) ∧
    (∀ (genId : Nat → String) (ty : String)
       (fields efields : List (String × Json)) (c : Nat) (hv : Json),
       objGet fields "hidden" = none → objGet efields "hidden" = some hv →
       hv ≠ .null →
       objGet (normalizeItemFields genId ty fields (some efields) c).1 "hidden" =
         some hv) ∧
    (∀ (genId : Nat → String) (ty : String)
       (fields efields : List (String × Json)) (c : Nat) (wv : Json),
       sectionsWithWebsite.contains ty = true →
       objGet fields "website" = none → objGet efields "website" = some wv →
       wv ≠ .null →
       objGet (normalizeItemFields genId ty fields (some efields) c).1 "website" =
         some wv) ∧
    (∀ (genId : Nat → String) (ty : String)
       (fields efields : List (String × Json)) (c : Nat) (iv : Json),
       sectionsWithIcon.contains ty = true →
       objGet fields "icon" = none → objGet efields "icon" = some iv →
       iv ≠ .null →
       objGet (normalizeItemFields genId ty fields (some efields) c).1 "icon" =
         some iv) ∧
    (∀ (genId : Nat → String) (fields efields : List (String × Json))
       (c : Nat) (tv : Json),
       objGet fields "title" = none → objGet efields "title" = some tv →
       tv ≠ .null →
       objGet (normalizeCustomSectionFields genId fields (some efields) c).1
         "title" = some tv) ∧
    (∀ (genId : Nat → String) (fields efields : List (String × Json))
       (c : Nat) (cv : Json),
       objGet fields "columns" = none → objGet efields "columns" = some cv →
       cv ≠ .null →
       objGet (normalizeCustomSectionFields genId fields (some efields) c).1
         "columns" = some cv) ∧
    (∀ (genId : Nat → String) (fields efields : List (String × Json))
       (c : Nat) (tv : Json),
       objGet fields "type" = none → objGet efields "type" = some tv →
       objGet (normalizeCustomSectionFields genId fields (some efields) c).1
         "type" = some tv) ∧
    (∀ (genId : Nat → String) (fields efields : List (String × Json))
       (c : Nat) (its : List Json),
       objGet fields "items" = none → objGet efields "items" = some (.arr its) →
       (∀ it ∈ its, itemFullyKeyed it = true) →
       objGet (normalizeCustomSectionFields genId fields (some efields) c).1
         "items" = some (.arr its)) ∧
    applyResumePatch sampleGenId acceptAll
      (sampleTarget [expItemP "a" "Acme" "Engineer"] [] [samplePage ["summary"] []])
      [.replace "/data/sections/experience/items/id/a"
        (.obj [("company", .str "Acme"), ("position", .str "Lead"),
               ("website", defaultWebsite)])] =
      .ok (sampleTarget
        [.obj [("company", .str "Acme"), ("position", .str "Lead"),
               ("website", defaultWebsite), ("id", .str "a"),
               ("hidden", .bool false)]]
        [] [samplePage ["summary"] []]) ∧
    applyResumePatch sampleGenId acceptAll
      (sampleTarget []
        [.obj [("id", .str "cs1"), ("title", .str "Old"), ("type", .str "skills"),
               ("columns", .num 2), ("hidden", .bool true), ("items", .arr [])]]
        [samplePage ["summary", "cs1"] []])
      [.replace "/data/customSections/0" (.obj [("title", .str "New")])] =
      .ok (sampleTarget []
        [.obj [("title", .str "New"), ("id", .str "cs1"), ("hidden", .bool true),
               ("columns", .num 2), ("type", .str "skills"), ("items", .arr [])]]
        [samplePage ["summary", "cs1"] []]) := by
  refine ⟨?_, ?_, ?_, ?_, ?_, ?_, ?_, ?_, by decide, by decide⟩
  · intro genId ty fields efields c idv hid hex hnn
    have hfill := fillId_absent_some genId fields (some efields) c idv hid
      (by rw [exGet_some]; exact hex) hnn
    have h1 : (fillId genId fields (some efields) c).1 = objSet fields "id" idv := by
      rw [hfill]
    dsimp only [normalizeItemFields]
    rw [fillKeyWhen_get_ne _ _ _ _ _ (by decide),
        fillKeyWhen_get_ne _ _ _ _ _ (by decide),
        fillKey_get_ne _ _ _ _ (by decide), h1]
    exact objGet_objSet_self fields "id" idv
  · intro genId ty fields efields c hv hh hex hnn
    dsimp only [normalizeItemFields]
    rw [fillKeyWhen_get_ne _ _ _ _ _ (by decide),
        fillKeyWhen_get_ne _ _ _ _ _ (by decide)]
    have habs : objGet (fillId genId fields (some efields) c).1 "hidden" = none := by
      rw [fillId_get_ne _ _ _ _ _ (by decide)]; exact hh
    rw [fillKey_absent "hidden" _ _ habs, exGet_some, hex,
        jsCoalesce_some_ne_null hv _ hnn]
  · intro genId ty fields efields c wv hW hw hex hnn
    dsimp only [normalizeItemFields]
    rw [fillKeyWhen_get_ne _ _ _ _ _ (by decide), hW]
    have habs : objGet (fillKey "hidden"
        (jsCoalesce (exGet (some efields) "hidden") (.bool false))
        (fillId genId fields (some efields) c).1) "website" = none := by
      rw [fillKey_get_ne _ _ _ _ (by decide),
          fillId_get_ne _ _ _ _ _ (by decide)]
      exact hw
    rw [fillKeyWhen_true_absent "website" _ _ habs, exGet_some, hex,
        jsCoalesce_some_ne_null wv _ hnn]
  · intro genId ty fields efields c iv hI hi hex hnn
    dsimp only [normalizeItemFields]
    rw [hI]
    have habs : objGet (fillKeyWhen (sectionsWithWebsite.contains ty) "website"
        (jsCoalesce (exGet (some efields) "website") defaultWebsite)
        (fillKey "hidden" (jsCoalesce (exGet (some efields) "hidden") (.bool false))
          (fillId genId fields (some efields) c).1)) "icon" = none := by
      rw [fillKeyWhen_get_ne _ _ _ _ _ (by decide),
          fillKey_get_ne _ _ _ _ (by decide),
          fillId_get_ne _ _ _ _ _ (by decide)]
      exact hi
    rw [fillKeyWhen_true_absent "icon" _ _ habs, exGet_some, hex,
        jsCoalesce_some_ne_null iv _ hnn]
  · intro genId fields efields c tv ht hex hnn
    rw [ncsf_get_of_ne_items genId fields (some efields) c "title" (by decide)]
    rw [fillKey_get_ne _ _ _ _ (by decide),
        fillType_get_ne _ _ _ (by decide)]
    have habs : objGet (fillKey "columns"
        (jsCoalesce (exGet (some efields) "columns") (.num 1))
        (fillKey "hidden" (jsCoalesce (exGet (some efields) "hidden") (.bool false))
          (fillId genId fields (some efields) c).1)) "title" = none := by
      rw [fillKey_get_ne _ _ _ _ (by decide),
          fillKey_get_ne _ _ _ _ (by decide),
          fillId_get_ne _ _ _ _ _ (by decide)]
      exact ht
    rw [fillKey_absent "title" _ _ habs, exGet_some, hex,
        jsCoalesce_some_ne_null tv _ hnn]
  · intro genId fields efields c cv hc hex hnn
    rw [ncsf_get_of_ne_items genId fields (some efields) c "columns" (by decide)]
    rw [fillKey_get_ne _ _ _ _ (by decide),
        fillType_get_ne _ _ _ (by decide),
        fillKey_get_ne _ _ _ _ (by decide)]
    have habs : objGet (fillKey "hidden"
        (jsCoalesce (exGet (some efields) "hidden") (.bool false))
        (fillId genId fields (some efields) c).1) "columns" = none := by
      rw [fillKey_get_ne _ _ _ _ (by decide),
          fillId_get_ne _ _ _ _ _ (by decide)]
      exact hc
    rw [fillKey_absent "columns" _ _ habs, exGet_some, hex,
        jsCoalesce_some_ne_null cv _ hnn]
  · intro genId fields efields c tv ht hex
    rw [ncsf_get_of_ne_items genId fields (some efields) c "type" (by decide)]
    rw [fillKey_get_ne _ _ _ _ (by decide)]
    have habs : objGet (fillKey "title"
        (jsCoalesce (exGet (some efields) "title") (.str ""))
        (fillKey "columns" (jsCoalesce (exGet (some efields) "columns") (.num 1))
          (fillKey "hidden" (jsCoalesce (exGet (some efields) "hidden") (.bool false))
            (fillId genId fields (some efields) c).1))) "type" = none := by
      rw [fillKey_get_ne _ _ _ _ (by decide),
          fillKey_get_ne _ _ _ _ (by decide),
          fillKey_get_ne _ _ _ _ (by decide),
          fillId_get_ne _ _ _ _ _ (by decide)]
      exact ht
    rw [fillType_absent_some _ _ tv habs (by rw [exGet_some]; exact hex)]
  · intro genId fields efields c its hitems hex hfix
    have habs : objGet (fillType (some efields)
        (fillKey "title" (jsCoalesce (exGet (some efields) "title") (.str ""))
          (fillKey "columns" (jsCoalesce (exGet (some efields) "columns") (.num 1))
            (fillKey "hidden"
              (jsCoalesce (exGet (some efields) "hidden") (.bool false))
              (fillId genId fields (some efields) c).1)))) "items" = none := by
      rw [fillType_get_ne _ _ _ (by decide),
          fillKey_get_ne _ _ _ _ (by decide),
          fillKey_get_ne _ _ _ _ (by decide),
          fillKey_get_ne _ _ _ _ (by decide),
          fillId_get_ne _ _ _ _ _ (by decide)]
      exact hitems
    have hstep : objGet (fillKey "items"
        (jsCoalesce (exGet (some efields) "items") (.arr []))
        (fillType (some efields)
          (fillKey "title" (jsCoalesce (exGet (some efields) "title") (.str ""))
            (fillKey "columns" (jsCoalesce (exGet (some efields) "columns") (.num 1))
              (fillKey "hidden"
                (jsCoalesce (exGet (some efields) "hidden") (.bool false))
                (fillId genId fields (some efields) c).1))))) "items" =
        some (.arr its) := by
      rw [fillKey_absent "items" _ _ habs, exGet_some, hex]
      rfl
    dsimp only [normalizeCustomSectionFields]
    split
    · rename_i its' tys heqItems heqType
      rw [hstep] at heqItems
      cases heqItems
      rw [objGet_objSet_self, normItemList_fixed genId tys its hfix]
    · exact hstep

/-- Witness for C4: the id- and hidden-preservation clauses applied to a
concrete payload omitting both against a concrete existing entity. -/
theorem C4_replace_fills_from_existing_witness :
    objGet (normalizeItemFields sampleGenId "experience"
      [("company", .str "Acme")]
      (some [("id", .str "keep-me"), ("hidden", .bool true)]) 0).1 "id" =
      some (.str "keep-me") ∧
    objGet (normalizeItemFields sampleGenId "experience"
      [("company", .str "Acme")]
      (some [("id", .str "keep-me"), ("hidden", .bool true)]) 0).1 "hidden" =
      some (.bool true) := by
  constructor
  · exact C4_replace_fills_from_existing.1 sampleGenId "experience"
      [("company", .str "Acme")] [("id", .str "keep-me"), ("hidden", .bool true)]
      0 (.str "keep-me") (by decide) (by decide) (by simp)
  · exact C4_replace_fills_from_existing.2.1 sampleGenId "experience"
      [("company", .str "Acme")] [("id", .str "keep-me"), ("hidden", .bool true)]
      0 (.bool true) (by decide) (by decide) (by simp)

/-! ## C10 — whole-array values normalize with no existing entity -/

theorem nif_get_id (genId : Nat → String) (ty : String)
    (fields : List (String × Json)) (ef : Option (List (String × Json)))
    (c : Nat) (hid : objGet fields "id" = none) (he : exGet ef "id" = none) :
    objGet (normalizeItemFields genId ty fields ef c).1 "id" =
      some (.str (genId c)) := by
  have hfill := fillId_absent_none genId fields ef c hid he
  have h1 : (fillId genId fields ef c).1 = objSet fields "id" (.str (genId c)) := by
    rw [hfill]
  dsimp only [normalizeItemFields]
  rw [fillKeyWhen_get_ne _ _ _ _ _ (by decide),
      fillKeyWhen_get_ne _ _ _ _ _ (by decide),
      fillKey_get_ne _ _ _ _ (by decide), h1]
  exact objGet_objSet_self fields "id" (.str (genId c))

theorem nif_counter (genId : Nat → String) (ty : String)
    (fields : List (String × Json)) (ef : Option (List (String × Json)))
    (c : Nat) (hid : objGet fields "id" = none) (he : exGet ef "id" = none) :
    (normalizeItemFields genId ty fields ef c).2 = c + 1 := by
  dsimp only [normalizeItemFields]
  rw [fillId_absent_none genId fields ef c hid he]

theorem nif_get_hidden (genId : Nat → String) (ty : String)
    (fields : List (String × Json)) (ef : Option (List (String × Json)))
    (c : Nat) (hh : objGet fields "hidden" = none) :
    objGet (normalizeItemFields genId ty fields ef c).1 "hidden" =
      some (jsCoalesce (exGet ef "hidden") (.bool false)) := by
  dsimp only [normalizeItemFields]
  rw [fillKeyWhen_get_ne _ _ _ _ _ (by decide),
      fillKeyWhen_get_ne _ _ _ _ _ (by decide)]
  have habs : objGet (fillId genId fields ef c).1 "hidden" = none := by
    rw [fillId_get_ne _ _ _ _ _ (by decide)]; exact hh
  exact fillKey_absent "hidden" _ _ habs

theorem nif_get_website (genId : Nat → String) (ty : String)
    (fields : List (String × Json)) (ef : Option (List (String × Json)))
    (c : Nat) (hW : sectionsWithWebsite.contains ty = true)
    (hw : objGet fields "website" = none) :
    objGet (normalizeItemFields genId ty fields ef c).1 "website" =
      some (jsCoalesce (exGet ef "website") defaultWebsite) := by
  dsimp only [normalizeItemFields]
  rw [fillKeyWhen_get_ne _ _ _ _ _ (by decide), hW]
  have habs : objGet (fillKey "hidden"
      (jsCoalesce (exGet ef "hidden") (.bool false))
      (fillId genId fields ef c).1) "website" = none := by
    rw [fillKey_get_ne _ _ _ _ (by decide),
        fillId_get_ne _ _ _ _ _ (by decide)]
    exact hw
  exact fillKeyWhen_true_absent "website" _ _ habs

theorem nif_get_icon (genId : Nat → String) (ty : String)
    (fields : List (String × Json)) (ef : Option (List (String × Json)))
    (c : Nat) (hI : sectionsWithIcon.contains ty = true)
    (hi : objGet fields "icon" = none) :
    objGet (normalizeItemFields genId ty fields ef c).1 "icon" =
      some (jsCoalesce (exGet ef "icon") (.str "")) := by
  dsimp only [normalizeItemFields]
  rw [hI]
  have habs : objGet (fillKeyWhen (sectionsWithWebsite.contains ty) "website"
      (jsCoalesce (exGet ef "website") defaultWebsite)
      (fillKey "hidden" (jsCoalesce (exGet ef "hidden") (.bool false))
        (fillId genId fields ef c).1)) "icon" = none := by
    rw [fillKeyWhen_get_ne _ _ _ _ _ (by decide),
        fillKey_get_ne _ _ _ _ (by decide),
        fillId_get_ne _ _ _ _ _ (by decide)]
    exact hi
  exact fillKeyWhen_true_absent "icon" _ _ habs

theorem fillId_counter_ge (genId : Nat → String) (f : List (String × Json))
    (ef : Option (List (String × Json))) (c : Nat) :
    c ≤ (fillId genId f ef c).2 := by
  unfold fillId
  split
  · exact Nat.le_refl c
  · split
    · exact Nat.le_succ c
    · exact Nat.le_refl c
    · exact Nat.le_succ c

theorem normalizeItem_counter_ge (genId : Nat → String) (ty : String)
    (v : Json) (ex : Option Json) (c : Nat) :
    c ≤ (normalizeItem genId ty v ex c).2 := by
  cases v with
  | obj fields =>
    dsimp only [normalizeItem, normalizeItemFields]
    exact fillId_counter_ge genId fields _ c
  | null => exact Nat.le_refl c
  | bool b => exact Nat.le_refl c
  | num n => exact Nat.le_refl c
  | str s => exact Nat.le_refl c
  | arr l => exact Nat.le_refl c

theorem normItemList_counter_ge (genId : Nat → String) (ty : String) :
    ∀ (its : List Json) (c : Nat), c ≤ (normItemList genId ty its c).2 := by
  intro its
  induction its with
  | nil => intro c; exact Nat.le_refl c
  | cons it rest ih =>
    intro c
    simp only [normItemList]
    exact Nat.le_trans (normalizeItem_counter_ge genId ty it none c) (ih _)

theorem normItemList_element_fresh (genId : Nat → String) (ty : String) :
    ∀ (vs : List Json) (c i : Nat) (fields : List (String × Json)),
      vs.get? i = some (.obj fields) →
      ∃ (rfields : List (String × Json)) (n : Nat),
        (normItemList genId ty vs c).1.get? i = some (.obj rfields) ∧ c ≤ n ∧
        (objGet fields "id" = none →
          objGet rfields "id" = some (.str (genId n))) ∧
        (objGet fields "hidden" = none →
          objGet rfields "hidden" = some (.bool false)) ∧
        (sectionsWithWebsite.contains ty = true →
          objGet fields "website" = none →
          objGet rfields "website" = some defaultWebsite) ∧
        (sectionsWithIcon.contains ty = true → objGet fields "icon" = none →
          objGet rfields "icon" = some (.str "")) := by
  intro vs
  induction vs with
  | nil => intro c i fields h; simp [List.get?] at h
  | cons v rest ih =>
    intro c i fields h
    cases i with
    | zero =>
      simp only [List.get?] at h
      cases h
      refine ⟨(normalizeItemFields genId ty fields none c).1, c, rfl,
        Nat.le_refl c, ?_, ?_, ?_, ?_⟩
      · intro hid; exact nif_get_id genId ty fields none c hid rfl
      · intro hh; exact nif_get_hidden genId ty fields none c hh
      · intro hW hw; exact nif_get_website genId ty fields none c hW hw
      · intro hI hi; exact nif_get_icon genId ty fields none c hI hi
    | succ j =>
      simp only [List.get?] at h
      obtain ⟨rf, n, hr, hn, h1, h2, h3, h4⟩ :=
        ih (normalizeItem genId ty v none c).2 j fields h
      refine ⟨rf, n, ?_, ?_, h1, h2, h3, h4⟩
      · simp only [normItemList, List.get?]
        exact hr
      · exact Nat.le_trans (normalizeItem_counter_ge genId ty v none c) hn

theorem ncsf_get_id (genId : Nat → String) (fields : List (String × Json))
    (ef : Option (List (String × Json))) (c : Nat)
    (hid : objGet fields "id" = none) (he : exGet ef "id" = none) :
    objGet (normalizeCustomSectionFields genId fields ef c).1 "id" =
      some (.str (genId c)) := by
  rw [ncsf_get_of_ne_items genId fields ef c "id" (by decide)]
  rw [fillKey_get_ne _ _ _ _ (by decide), fillType_get_ne _ _ _ (by decide),
      fillKey_get_ne _ _ _ _ (by decide), fillKey_get_ne _ _ _ _ (by decide),
      fillKey_get_ne _ _ _ _ (by decide)]
  have h1 : (fillId genId fields ef c).1 = objSet fields "id" (.str (genId c)) := by
    rw [fillId_absent_none genId fields ef c hid he]
  rw [h1]
  exact objGet_objSet_self fields "id" (.str (genId c))

theorem normalizeCustomSection_counter_ge (genId : Nat → String) (v : Json)
    (ex : Option Json) (c : Nat) :
    c ≤ (normalizeCustomSection genId v ex c).2 := by
  cases v with
  | obj fields =>
    dsimp only [normalizeCustomSection, normalizeCustomSectionFields]
    split
    · exact Nat.le_trans (fillId_counter_ge genId fields _ c)
        (normItemList_counter_ge genId _ _ _)
    · exact fillId_counter_ge genId fields _ c
  | null => exact Nat.le_refl c
  | bool b => exact Nat.le_refl c
  | num n => exact Nat.le_refl c
  | str s => exact Nat.le_refl c
  | arr l => exact Nat.le_refl c

theorem normCustomSectionList_element_fresh (genId : Nat → String) :
    ∀ (vs : List Json) (c i : Nat) (fields : List (String × Json)),
      vs.get? i = some (.obj fields) →
      ∃ (rfields : List (String × Json)) (n : Nat),
        (normCustomSectionList genId vs c).1.get? i = some (.obj rfields) ∧
        c ≤ n ∧
        (objGet fields "id" = none →
          objGet rfields "id" = some (.str (genId n))) := by
  intro vs
  induction vs with
  | nil => intro c i fields h; simp [List.get?] at h
  | cons v rest ih =>
    intro c i fields h
    cases i with
    | zero =>
      simp only [List.get?] at h
      cases h
      refine ⟨(normalizeCustomSectionFields genId fields none c).1, c, rfl,
        Nat.le_refl c, ?_⟩
      intro hid
      exact ncsf_get_id genId fields none c hid rfl
    | succ j =>
      simp only [List.get?] at h
      obtain ⟨rf, n, hr, hn, h1⟩ :=
        ih (normalizeCustomSection genId v none c).2 j fields h
      refine ⟨rf, n, ?_, ?_, h1⟩
      · simp only [normCustomSectionList, List.get?]
        exact hr
      · exact Nat.le_trans (normalizeCustomSection_counter_ge genId v none c) hn

/-- C10: values landing on a whole items array
(`/data/sections/<type>/items`, `/data/customSections/<index>/items`) or on
the whole `customSections` array are normalized with no reference to the
pre-existing array — the dispatch ignores the `existingValue` argument
entirely — so every element object that omits `id` receives a freshly
generated id (some `genId n` with `n` at or above the running counter,
hence never equal to a pre-existing id when the generator is fresh), an
omitted `hidden` becomes `false`, and omitted `website`/`icon` become the
type defaults rather than the previous elements' values; end-to-end,
replacing a skills items array element-for-element does not preserve the
old element's `id`, `hidden`, or `icon`. -/
theorem C10_whole_array_normalization_fresh :
    (∀ (genId : Nat → String) (data : Json) (segs : List String) (value : Json)
       (ex1 ex2 : Option Json) (c : Nat),
       isSectionItemsArrayPath segs = true →
       normalizeValueAtPath genId data segs value ex1 c =
         normalizeValueAtPath genId data segs value ex2 c) ∧
    (∀ (genId : Nat → String) (data : Json) (segs : List String) (value : Json)
       (ex1 ex2 : Option Json) (c : Nat),
       isCustomSectionsArrayPath segs = true →
       normalizeValueAtPath genId data segs value ex1 c =
         normalizeValueAtPath genId data segs value ex2 c) ∧
    (∀ (genId : Nat → String) (data : Json) (segs : List String) (value : Json)
       (ex1 ex2 : Option Json) (c : Nat),
       isCustomSectionItemsArrayPath segs = true →
       normalizeValueAtPath genId data segs value ex1 c =
         normalizeValueAtPath genId data segs value ex2 c) ∧
    (∀ (genId : Nat → String) (ty : String) (vs : List Json) (c i : Nat)
       (fields : List (String × Json)),
       vs.get? i = some (.obj fields) →
       ∃ (rfields : List (String × Json)) (n : Nat),
         (normItemList genId ty vs c).1.get? i = some (.obj rfields) ∧ c ≤ n ∧
         (objGet fields "id" = none →
           objGet rfields "id" = some (.str (genId n)) ∧
           (∀ oldId : String, (∀ m, genId m ≠ oldId) →
             objGet rfields "id" ≠ some (.str oldId))) ∧
         (objGet fields "hidden" = none →
           objGet rfields "hidden" = some (.bool false)) ∧
         (sectionsWithWebsite.contains ty = true →
           objGet fields "website" = none →
           objGet rfields "website" = some defaultWebsite) ∧
         (sectionsWithIcon.contains ty = true → objGet fields "icon" = none →
           objGet rfields "icon" = some (.str ""))) ∧
    (∀ (genId : Nat → String) (vs : List Json) (c i : Nat)
       (fields : List (String × Json)),
       vs.get? i = some (.obj fields) →
       ∃ (rfields : List (String × Json)) (n : Nat),
         (normCustomSectionList genId vs c).1.get? i = some (.obj rfields) ∧
         c ≤ n ∧
         (objGet fields "id" = none →
           objGet rfields "id" = some (.str (genId n)))) ∧
    applyResumePatch sampleGenId acceptAll
      (sampleTargetSk
        [.obj [("id", .str "old-id"), ("hidden", .bool true), ("name", .str "TS"),
               ("icon", .str "custom")]]
        [samplePage ["summary"] []])
      [.replace "/data/sections/skills/items" (.arr [.obj [("name", .str "TS")]])] =
      .ok (sampleTargetSk
        [.obj [("name", .str "TS"), ("id", .str "gen0"), ("hidden", .bool false),
               ("icon", .str "")]]
        [samplePage ["summary"] []]) := by
  refine ⟨?_, ?_, ?_, ?_, ?_, by decide⟩
  · intro genId data segs value ex1 ex2 c h
    simp [normalizeValueAtPath, h]
  · intro genId data segs value ex1 ex2 c h
    have hl : segs.length = 2 := by
      simp only [isCustomSectionsArrayPath, Bool.and_eq_true, beq_iff_eq] at h
      exact h.1.1
    have h1 : isSectionItemsArrayPath segs = false := by
      simp [isSectionItemsArrayPath, hl]
    have h2 : isSectionItemPath segs = false := by
      simp [isSectionItemPath, hl]
    simp [normalizeValueAtPath, h1, h2, h]
  · intro genId data segs value ex1 ex2 c h
    have hc : segs.length = 4 ∧ segs.getD 1 "" = "customSections" := by
      simp only [isCustomSectionItemsArrayPath, Bool.and_eq_true, beq_iff_eq] at h
      exact ⟨h.1.1.1, h.1.2⟩
    have h1 : isSectionItemsArrayPath segs = false := by
      simp only [isSectionItemsArrayPath]
      rw [hc.2]
      simp
    have h2 : isSectionItemPath segs = false := by
      simp [isSectionItemPath, hc.1]
    have h3 : isCustomSectionsArrayPath segs = false := by
      simp [isCustomSectionsArrayPath, hc.1]
    have h4 : isCustomSectionPath segs = false := by
      simp [isCustomSectionPath, hc.1]
    simp [normalizeValueAtPath, h1, h2, h3, h4, h]
  · intro genId ty vs c i fields h
    obtain ⟨rf, n, hr, hn, h1, h2, h3, h4⟩ :=
      normItemList_element_fresh genId ty vs c i fields h
    refine ⟨rf, n, hr, hn, ?_, h2, h3, h4⟩
    intro hid
    refine ⟨h1 hid, ?_⟩
    intro oldId hfresh heq
    rw [h1 hid] at heq
    exact hfresh n (by injection heq with h5; injection h5)
  · intro genId vs c i fields h
    exact normCustomSectionList_element_fresh genId vs c i fields h

/-- Witness for C10: the items-array freshness clause applied to a
concrete one-element array whose payload lacks an id, instantiating the
freshness side condition with the concrete old id. -/
theorem C10_whole_array_normalization_fresh_witness :
    ∃ (rfields : List (String × Json)) (n : Nat),
      (normItemList sampleGenId "skills" [.obj [("name", .str "TS")]] 0).1.get? 0 =
        some (.obj rfields) ∧ 0 ≤ n ∧
      (objGet [("name", .str "TS")] "id" = none →
        objGet rfields "id" = some (.str (sampleGenId n)) ∧
        (∀ oldId : String, (∀ m, sampleGenId m ≠ oldId) →
          objGet rfields "id" ≠ some (.str oldId))) ∧
      (objGet [("name", .str "TS")] "hidden" = none →
        objGet rfields "hidden" = some (.bool false)) ∧
      (sectionsWithWebsite.contains "skills" = true →
        objGet [("name", .str "TS")] "website" = none →
        objGet rfields "website" = some defaultWebsite) ∧
      (sectionsWithIcon.contains "skills" = true →
        objGet [("name", .str "TS")] "icon" = none →
        objGet rfields "icon" = some (.str "")) :=
  C10_whole_array_normalization_fresh.2.2.2.1 sampleGenId "skills"
    [.obj [("name", .str "TS")]] 0 0 [("name", .str "TS")] (by decide)

/-! ## Lemmas about the layout synchronizer -/

theorem json_contains_iff (l : List Json) (a : Json) :
    l.contains a = true ↔ a ∈ l := List.elem_iff

theorem jGet_some_obj (p : Json) (k : String) (v : Json) (h : jGet p k = some v) :
    ∃ f, p = .obj f ∧ objGet f k = some v := by
  cases p with
  | obj f => exact ⟨f, rfl, h⟩
  | null => cases h
  | bool b => cases h
  | num n => cases h
  | str s => cases h
  | arr l => cases h

theorem mainList_prunePage (cid : List Json) (page : Json) :
    mainList (prunePage cid page) = pruneLayoutList cid (mainList page) := by
  cases page with
  | obj f =>
    have h1 : ∀ (v w : Json),
        objGet (objSet (objSet f "main" v) "sidebar" w) "main" = some v := by
      intro v w
      rw [objGet_objSet_ne _ "sidebar" "main" _ (by decide)]
      exact objGet_objSet_self f "main" v
    have h2 : ∀ (v : Json), objGet (objSet f "main" v) "main" = some v :=
      fun v => objGet_objSet_self f "main" v
    have h3 : ∀ (v : Json), objGet (objSet f "sidebar" v) "main" = objGet f "main" :=
      fun v => objGet_objSet_ne f "sidebar" "main" v (by decide)
    cases hmn : objGet f "main" with
    | some m =>
      cases m <;>
        (simp only [prunePage, jGet, setKey, hmn]
         split <;> simp [mainList, jGet, h1, h2, h3, hmn, pruneLayoutList])
    | none =>
      simp only [prunePage, jGet, setKey, hmn]
      split <;> simp [mainList, jGet, h3, hmn, pruneLayoutList]
  | null => simp [prunePage, jGet, mainList, pruneLayoutList]
  | bool b => simp [prunePage, jGet, mainList, pruneLayoutList]
  | num n => simp [prunePage, jGet, mainList, pruneLayoutList]
  | str s => simp [prunePage, jGet, mainList, pruneLayoutList]
  | arr l => simp [prunePage, jGet, mainList, pruneLayoutList]

theorem sidebarList_prunePage (cid : List Json) (page : Json) :
    sidebarList (prunePage cid page) = pruneLayoutList cid (sidebarList page) := by
  cases page with
  | obj f =>
    have h1 : ∀ (v w : Json),
        objGet (objSet (objSet f "main" v) "sidebar" w) "sidebar" = some w :=
      fun v w => objGet_objSet_self (objSet f "main" v) "sidebar" w
    have h2 : ∀ (v : Json), objGet (objSet f "sidebar" v) "sidebar" = some v :=
      fun v => objGet_objSet_self f "sidebar" v
    have h3 : ∀ (v : Json), objGet (objSet f "main" v) "sidebar" = objGet f "sidebar" :=
      fun v => objGet_objSet_ne f "main" "sidebar" v (by decide)
    cases hmn : objGet f "main" with
    | some m =>
      cases m <;>
        (simp only [prunePage, jGet, setKey, hmn]
         split <;> simp_all [mainList, sidebarList, jGet, h1, h2, h3, pruneLayoutList])
    | none =>
      simp only [prunePage, jGet, setKey, hmn]
      split <;> simp_all [mainList, sidebarList, jGet, h2, h3, pruneLayoutList]
  | null => simp [prunePage, jGet, sidebarList, pruneLayoutList]
  | bool b => simp [prunePage, jGet, sidebarList, pruneLayoutList]
  | num n => simp [prunePage, jGet, sidebarList, pruneLayoutList]
  | str s => simp [prunePage, jGet, sidebarList, pruneLayoutList]
  | arr l => simp [prunePage, jGet, sidebarList, pruneLayoutList]

theorem pageEntries_prunePage (cid : List Json) (page : Json) :
    pageEntries (prunePage cid page) =
      pruneLayoutList cid (mainList page) ++ pruneLayoutList cid (sidebarList page) := by
  unfold pageEntries
  rw [mainList_prunePage, sidebarList_prunePage]

theorem mem_pruneLayoutList (cid : List Json) (l : List Json) (id : Json)
    (h : id ∈ pruneLayoutList cid l) :
    isAllowedLayoutId id = true ∨ id ∈ cid := by
  unfold pruneLayoutList at h
  have := (List.mem_filter.mp h).2
  simpa using this

theorem mainList_pushMain (page : Json) (ids : List Json) :
    mainList (pushMain page ids) = mainList page ++ ids ∨
      mainList (pushMain page ids) = mainList page := by
  unfold pushMain
  cases page with
  | obj f =>
    cases hm : objGet f "main" with
    | some m =>
      cases m with
      | arr l =>
        left
        simp [jGet, hm, setKey, mainList, objGet_objSet_self]
      | null => right; simp [jGet, hm]
      | bool b => right; simp [jGet, hm]
      | num n => right; simp [jGet, hm]
      | str s => right; simp [jGet, hm]
      | obj f2 => right; simp [jGet, hm]
    | none => right; simp [jGet, hm]
  | null => right; rfl
  | bool b => right; rfl
  | num n => right; rfl
  | str s => right; rfl
  | arr l => right; rfl

theorem sidebarList_pushMain (page : Json) (ids : List Json) :
    sidebarList (pushMain page ids) = sidebarList page := by
  unfold pushMain
  cases page with
  | obj f =>
    cases hm : objGet f "main" with
    | some m =>
      cases m with
      | arr l =>
        simp only [jGet, hm, setKey, sidebarList]
        rw [objGet_objSet_ne f "main" "sidebar" _ (by decide)]
      | null => simp [jGet, hm]
      | bool b => simp [jGet, hm]
      | num n => simp [jGet, hm]
      | str s => simp [jGet, hm]
      | obj f2 => simp [jGet, hm]
    | none => simp [jGet, hm]
  | null => rfl
  | bool b => rfl
  | num n => rfl
  | str s => rfl
  | arr l => rfl

theorem pushMain_nil (page : Json) : pushMain page [] = page := by
  unfold pushMain
  cases page with
  | obj f =>
    cases hm : objGet f "main" with
    | some m =>
      cases m with
      | arr l =>
        simp only [jGet, hm, setKey, List.append_nil]
        rw [objSet_objGet_self f "main" (.arr l) hm]
      | null => simp [jGet, hm]
      | bool b => simp [jGet, hm]
      | num n => simp [jGet, hm]
      | str s => simp [jGet, hm]
      | obj f2 => simp [jGet, hm]
    | none => simp [jGet, hm]
  | null => rfl
  | bool b => rfl
  | num n => rfl
  | str s => rfl
  | arr l => rfl

theorem layoutPages_structure (data : Json) (pages : List Json)
    (h : layoutPages data = some pages) :
    ∃ f mf lof, data = .obj f ∧ objGet f "metadata" = some (.obj mf) ∧
      objGet mf "layout" = some (.obj lof) ∧
      objGet lof "pages" = some (.arr pages) := by
  unfold layoutPages at h
  split at h
  · rename_i m hm
    split at h
    · rename_i l hl
      split at h
      · rename_i ps hp
        cases h
        obtain ⟨f, rfl, hm'⟩ := jGet_some_obj data "metadata" m hm
        obtain ⟨mf, rfl, hl'⟩ := jGet_some_obj _ "layout" l hl
        obtain ⟨lof, rfl, hp'⟩ := jGet_some_obj _ "pages" _ hp
        exact ⟨f, mf, lof, rfl, hm', hl', hp'⟩
      · cases h
    · cases h
  · cases h

theorem layoutPages_setIn (f mf lof : List (String × Json)) (pages l : List Json)
    (hm : objGet f "metadata" = some (.obj mf))
    (hl : objGet mf "layout" = some (.obj lof))
    (_hp : objGet lof "pages" = some (.arr pages)) :
    layoutPages (setIn (.obj f) ["metadata", "layout", "pages"] (.arr l)) =
      some l ∧
    jGet (setIn (.obj f) ["metadata", "layout", "pages"] (.arr l))
      "customSections" = jGet (.obj f) "customSections" := by
  have hs : setIn (.obj f) ["metadata", "layout", "pages"] (.arr l) =
      .obj (objSet f "metadata" (.obj (objSet mf "layout"
        (.obj (objSet lof "pages" (.arr l)))))) := by
    simp [setIn, jGet, hm, hl]
  constructor
  · rw [hs]
    unfold layoutPages
    simp only [jGet, objGet_objSet_self]
  · rw [hs]
    simp only [jGet]
    exact objGet_objSet_ne f "metadata" "customSections" _ (by decide)

theorem normalizeLayout_none (data : Json) (addNew : Bool) (orig : List Json)
    (h : layoutPages data = none) : normalizeLayout data addNew orig = data := by
  unfold normalizeLayout
  rw [h]

theorem normalizeLayout_some (data : Json) (addNew : Bool) (orig : List Json)
    (pages : List Json) (h : layoutPages data = some pages) :
    layoutPages (normalizeLayout data addNew orig) =
      some (layoutFinalPages data addNew orig pages) ∧
    jGet (normalizeLayout data addNew orig) "customSections" =
      jGet data "customSections" := by
  obtain ⟨f, mf, lof, rfl, hm, hl, hp⟩ := layoutPages_structure data pages h
  unfold normalizeLayout
  rw [h]
  exact layoutPages_setIn f mf lof pages _ hm hl hp

theorem customSectionIds_normalizeLayout (data : Json) (addNew : Bool)
    (orig : List Json) :
    customSectionIds (normalizeLayout data addNew orig) = customSectionIds data := by
  cases h : layoutPages data with
  | none => rw [normalizeLayout_none data addNew orig h]
  | some pages =>
    unfold customSectionIds
    rw [(normalizeLayout_some data addNew orig pages h).2]

theorem layoutFinalPages_false (data : Json) (orig : List Json)
    (pages : List Json) :
    layoutFinalPages data false orig pages =
      pages.map (prunePage (customSectionIds data)) := by
  simp [layoutFinalPages]

theorem layoutFinalPages_true (data : Json) (orig : List Json)
    (p0 : Json) (rest : List Json) :
    layoutFinalPages data true orig (p0 :: rest) =
      pushMain (prunePage (customSectionIds data) p0)
        ((customSectionIds data).filter (fun i => !orig.contains i &&
          !(((p0 :: rest).map (prunePage (customSectionIds data))).flatMap
              pageEntries).contains i)) ::
        rest.map (prunePage (customSectionIds data)) := by
  unfold layoutFinalPages
  simp only [List.map_cons, if_true]
  by_cases he : ((customSectionIds data).filter (fun i => !orig.contains i &&
      !((prunePage (customSectionIds data) p0 ::
          rest.map (prunePage (customSectionIds data))).flatMap
            pageEntries).contains i)).isEmpty
  · rw [if_pos he]
    rw [List.isEmpty_iff] at he
    rw [he, pushMain_nil]
  · rw [if_neg he]

/-- The layout invariant: every identifier in any page's `main`/`sidebar`
is a recognized built-in slot name or the id of a present custom section. -/
def layoutInvariant (data : Json) : Prop :=
  ∀ page ∈ (layoutPages data).getD [], ∀ id ∈ pageEntries page,
    isAllowedLayoutId id = true ∨ id ∈ customSectionIds data

theorem mem_pruned_entries (cid : List Json) (pages : List Json) (page : Json)
    (id : Json) (hp : page ∈ pages.map (prunePage cid))
    (hid : id ∈ pageEntries page) :
    isAllowedLayoutId id = true ∨ id ∈ cid := by
  obtain ⟨q, _hq, rfl⟩ := List.mem_map.mp hp
  rw [pageEntries_prunePage] at hid
  rcases List.mem_append.mp hid with h | h
  · exact mem_pruneLayoutList cid _ id h
  · exact mem_pruneLayoutList cid _ id h

theorem layoutFinalPages_mem (data : Json) (addNew : Bool) (orig : List Json)
    (pages : List Json) (page : Json) (id : Json)
    (hpage : page ∈ layoutFinalPages data addNew orig pages)
    (hid : id ∈ pageEntries page) :
    isAllowedLayoutId id = true ∨ id ∈ customSectionIds data := by
  unfold layoutFinalPages at hpage
  cases addNew with
  | false =>
    simp only [Bool.false_eq_true, if_false] at hpage
    exact mem_pruned_entries _ _ _ _ hpage hid
  | true =>
    simp only [if_true] at hpage
    split at hpage
    · exact mem_pruned_entries _ _ _ _ hpage hid
    · split at hpage
      · exact mem_pruned_entries _ _ _ _ hpage hid
      · rename_i p0' rest' heq
        rcases List.mem_cons.mp hpage with rfl | hmem
        · have hp0 : p0' ∈ pages.map (prunePage (customSectionIds data)) := by
            rw [heq]; simp
          unfold pageEntries at hid
          rcases List.mem_append.mp hid with hmain | hside
          · rcases mainList_pushMain p0' _ with he1 | he1
            · rw [he1] at hmain
              rcases List.mem_append.mp hmain with h2 | h2
              · exact mem_pruned_entries _ _ _ _ hp0
                  (List.mem_append.mpr (Or.inl h2))
              · exact Or.inr (List.mem_filter.mp h2).1
            · rw [he1] at hmain
              exact mem_pruned_entries _ _ _ _ hp0
                (List.mem_append.mpr (Or.inl hmain))
          · rw [sidebarList_pushMain] at hside
            exact mem_pruned_entries _ _ _ _ hp0
              (List.mem_append.mpr (Or.inr hside))
        · have hmem' : page ∈ pages.map (prunePage (customSectionIds data)) := by
            rw [heq]
            exact List.mem_cons_of_mem _ hmem
          exact mem_pruned_entries _ _ _ _ hmem' hid

theorem layoutInvariant_normalizeLayout (data : Json) (addNew : Bool)
    (orig : List Json) : layoutInvariant (normalizeLayout data addNew orig) := by
  cases h : layoutPages data with
  | none =>
    rw [normalizeLayout_none data addNew orig h]
    intro page hpage id _hid
    rw [h] at hpage
    cases hpage
  | some pages =>
    intro page hpage id hid
    obtain ⟨hpages, _hcs⟩ := normalizeLayout_some data addNew orig pages h
    rw [hpages] at hpage
    simp only [Option.getD_some] at hpage
    rw [customSectionIds_normalizeLayout]
    exact layoutFinalPages_mem data addNew orig pages page id hpage hid

theorem layoutInvariant_of_no_pages (data : Json)
    (h : layoutPages data = none) : layoutInvariant data := by
  intro page hpage id _hid
  rw [h] at hpage
  cases hpage

theorem dataOf_setData_obj (f : List (String × Json)) (d : Json) :
    dataOf (setData (.obj f) d) = d := by
  simp [setData, dataOf, jGet, objGet_objSet_self]

/-! ## C7 — layout references are always valid after a patch -/

/-- C7: after the layout synchronizer — and hence after every successful
patch whose validator returns the document it was given — every identifier
in any page's `main` or `sidebar` list is a recognized built-in slot name
(`summary` plus the 12 section types) or the id of a custom section
present in the document; end-to-end, a patch writing
`["summary", "not-a-section"]` into a page's `main` comes back with the
page reduced to `["summary"]`. -/
theorem C7_layout_references_valid :
    (∀ (data : Json) (addNew : Bool) (orig : List Json),
       layoutInvariant (normalizeLayout data addNew orig)) ∧
    (∀ (genId : Nat → String) (target : Json) (patch : List JsonPatchOp) (t : Json),
       buildPatchedTarget genId target patch = .ok t →
       layoutInvariant (dataOf t)) ∧
    (∀ (genId : Nat → String)
       (validate : Json → Except (List (List String × String)) Json)
       (target : Json) (patch : List JsonPatchOp) (t : Json),
       (∀ j j', validate j = .ok j' → j' = j) →
       applyResumePatch genId validate target patch = .ok t →
       layoutInvariant (dataOf t)) ∧
    applyResumePatch sampleGenId acceptAll
      (sampleTarget [] [] [samplePage ["summary"] []])
      [.replace "/data/metadata/layout/pages/0/main"
        (.arr [.str "summary", .str "not-a-section"])] =
      .ok (sampleTarget [] [] [samplePage ["summary"] []]) := by
  have hb : ∀ (genId : Nat → String) (target : Json) (patch : List JsonPatchOp)
      (t : Json), buildPatchedTarget genId target patch = .ok t →
      layoutInvariant (dataOf t) := by
    intro genId target patch t h
    unfold buildPatchedTarget at h
    cases hf : patch.foldlM (applyPatchStep genId)
        (EngineState.mk target false false 0) with
    | error e => rw [hf, except_bind_error] at h; cases h
    | ok stF =>
      rw [hf, except_bind_ok] at h
      cases h
      cases hn : stF.next with
      | obj f =>
        rw [dataOf_setData_obj]
        exact layoutInvariant_normalizeLayout _ _ _
      | null => exact layoutInvariant_of_no_pages _ rfl
      | bool b => exact layoutInvariant_of_no_pages _ rfl
      | num n => exact layoutInvariant_of_no_pages _ rfl
      | str s => exact layoutInvariant_of_no_pages _ rfl
      | arr l => exact layoutInvariant_of_no_pages _ rfl
  refine ⟨fun data addNew orig => layoutInvariant_normalizeLayout data addNew orig,
    hb, ?_, by decide⟩
  intro genId validate target patch t hvalid h
  unfold applyResumePatch at h
  split at h
  · cases h
  · rename_i next hbpt
    split at h
    · rename_i parsed hv
      cases h
      rw [← hvalid next t hv] at hbpt
      exact hb genId target patch t hbpt
    · cases h

/-- Witness for C7: the validator-aware clause applied to the concrete
prune scenario with the identity validator. -/
theorem C7_layout_references_valid_witness :
    layoutInvariant (dataOf (sampleTarget [] [] [samplePage ["summary"] []])) :=
  C7_layout_references_valid.2.2.1 sampleGenId acceptAll
    (sampleTarget [] [] [samplePage ["summary"] []])
    [.replace "/data/metadata/layout/pages/0/main"
      (.arr [.str "summary", .str "not-a-section"])]
    (sampleTarget [] [] [samplePage ["summary"] []])
    (fun _ _ h => (Except.ok.inj h).symm) (by decide)

/-! ## C6 — auto-attach is conditional on the batch's impact flags -/

/-- C6: after the batch, the first page's `main` gains exactly the
custom-section ids that are new relative to the pre-batch document and
unreferenced by any (pruned) page — and only when the layout synchronizer
runs in auto-attach mode; with auto-attach off every page is only pruned
and nothing is appended anywhere. The engine turns auto-attach on exactly
when the batch touched `data/customSections` but not
`data/metadata/layout`, computing the original ids from the pre-batch
target. End-to-end: a pre-existing unreferenced custom section stays
unreferenced when a different new one is added (only the new id is
appended), and a batch that adds a custom section and also edits the
layout appends nothing. -/
theorem C6_layout_auto_attach_conditional :
    (∀ (data : Json) (orig : List Json) (pages : List Json),
       layoutPages data = some pages →
       layoutPages (normalizeLayout data false orig) =
         some (pages.map (prunePage (customSectionIds data)))) ∧
    (∀ (data : Json) (orig : List Json) (p0 : Json) (rest : List Json),
       layoutPages data = some (p0 :: rest) →
       layoutPages (normalizeLayout data true orig) =
         some (pushMain (prunePage (customSectionIds data) p0)
           ((customSectionIds data).filter (fun i => !orig.contains i &&
             !(((p0 :: rest).map (prunePage (customSectionIds data))).flatMap
                 pageEntries).contains i)) ::
           rest.map (prunePage (customSectionIds data)))) ∧
    (∀ (genId : Nat → String) (target : Json) (patch : List JsonPatchOp)
       (stF : EngineState),
       patch.foldlM (applyPatchStep genId)
         (EngineState.mk target false false 0) = .ok stF →
       buildPatchedTarget genId target patch =
         .ok (setData stF.next (normalizeLayout (dataOf stF.next)
           (stF.touchesCustomSections && !stF.touchesLayout)
           (customSectionIds (dataOf target))))) ∧
    applyResumePatch sampleGenId acceptAll
      (sampleTarget []
        [.obj [("id", .str "existing-custom"), ("type", .str "skills"),
               ("title", .str "Existing"), ("columns", .num 1),
               ("hidden", .bool false), ("items", .arr [])]]
        [samplePage ["summary"] []])
      [.add "/data/customSections/-"
        (.obj [("type", .str "skills"), ("title", .str "New Custom")])] =
      .ok (sampleTarget []
        [.obj [("id", .str "existing-custom"), ("type", .str "skills"),
               ("title", .str "Existing"), ("columns", .num 1),
               ("hidden", .bool false), ("items", .arr [])],
         .obj [("type", .str "skills"), ("title", .str "New Custom"),
               ("id", .str "gen0"), ("hidden", .bool false),
               ("columns", .num 1), ("items", .arr [])]]
        [samplePage ["summary", "gen0"] []]) ∧
    applyResumePatch sampleGenId acceptAll
      (sampleTarget [] [] [samplePage ["summary"] []])
      [.add "/data/customSections/-"
        (.obj [("type", .str "skills"), ("title", .str "Custom Skills")]),
       .replace "/data/metadata/layout/pages/0/main" (.arr [])] =
      .ok (sampleTarget []
        [.obj [("type", .str "skills"), ("title", .str "Custom Skills"),
               ("id", .str "gen0"), ("hidden", .bool false),
               ("columns", .num 1), ("items", .arr [])]]
        [samplePage [] []]) := by
  refine ⟨?_, ?_, ?_, by decide, by decide⟩
  · intro data orig pages h
    rw [(normalizeLayout_some data false orig pages h).1, layoutFinalPages_false]
  · intro data orig p0 rest h
    rw [(normalizeLayout_some data true orig (p0 :: rest) h).1,
        layoutFinalPages_true]
  · intro genId target patch stF hf
    unfold buildPatchedTarget
    rw [hf, except_bind_ok]

/-- Witness for C6: the pruned-only clause and the auto-attach clause
applied to a concrete one-page layout with one unreferenced custom
section. -/
theorem C6_layout_auto_attach_conditional_witness :
    layoutPages (normalizeLayout
      (.obj [("customSections", .arr [.obj [("id", .str "c1")]]),
             ("metadata", .obj [("layout", .obj [("pages",
               .arr [samplePage ["summary"] []])])])])
      false []) = some [samplePage ["summary"] []] ∧
    layoutPages (normalizeLayout
      (.obj [("customSections", .arr [.obj [("id", .str "c1")]]),
             ("metadata", .obj [("layout", .obj [("pages",
               .arr [samplePage ["summary"] []])])])])
      true []) = some [samplePage ["summary", "c1"] []] := by
  constructor
  · have h := C6_layout_auto_attach_conditional.1
      (.obj [("customSections", .arr [.obj [("id", .str "c1")]]),
             ("metadata", .obj [("layout", .obj [("pages",
               .arr [samplePage ["summary"] []])])])])
      [] [samplePage ["summary"] []] (by decide)
    rw [h]
    decide
  · have h := C6_layout_auto_attach_conditional.2.1
      (.obj [("customSections", .arr [.obj [("id", .str "c1")]]),
             ("metadata", .obj [("layout", .obj [("pages",
               .arr [samplePage ["summary"] []])])])])
      [] (samplePage ["summary"] []) [] (by decide)
    rw [h]
    decide

/-! ## C1 — failure atomicity and the InvalidPatch translation -/

/-- A validator that rejects every document with one issue at
`data.basics.name` (the shape zod reports for a type error there). -/
def rejectNameValidator : Json → Except (List (List String × String)) Json :=
  fun _ => .error [(["data", "basics", "name"], "Expected string, received number")]

/-- C1: `applyResumePatch` operates on an independent copy of the caller's
target — in this pure embedding the input value is untouched by
construction, so every failure leaves the originally supplied target
deep-equal to its pre-call value — and when the final document fails
schema validation the call returns `InvalidPatch` carrying the full issue
list, each issue's path translated to a JSON pointer; any earlier failure
propagates as-is, with no partially-applied document ever returned. -/
theorem C1_failure_atomicity_invalid_patch :
    (∀ (genId : Nat → String)
       (validate : Json → Except (List (List String × String)) Json)
       (target : Json) (patch : List JsonPatchOp) (next : Json)
       (issues : List (List String × String)),
       buildPatchedTarget genId target patch = .ok next →
       validate next = .error issues →
       applyResumePatch genId validate target patch =
         .error (.invalidPatch
           (issues.map (fun i => (toJsonPointer i.1, i.2))))) ∧
    (∀ (genId : Nat → String)
       (validate : Json → Except (List (List String × String)) Json)
       (target : Json) (patch : List JsonPatchOp) (e : PatchError),
       buildPatchedTarget genId target patch = .error e →
       applyResumePatch genId validate target patch = .error e) ∧
    applyResumePatch sampleGenId rejectNameValidator
      (sampleTarget [] [] [samplePage ["summary"] []]) [] =
      .error (.invalidPatch
        [("/data/basics/name", "Expected string, received number")]) := by
  refine ⟨?_, ?_, by decide⟩
  · intro genId validate target patch next issues hb hv
    unfold applyResumePatch
    rw [hb]
    simp [hv]
  · intro genId validate target patch e hb
    unfold applyResumePatch
    rw [hb]

/-- Witness for C1: the InvalidPatch-translation clause applied to the
empty batch under the rejecting validator, and the error-propagation
clause applied to a batch with an invalid path. -/
theorem C1_failure_atomicity_invalid_patch_witness :
    applyResumePatch sampleGenId rejectNameValidator
      (sampleTarget [] [] [samplePage ["summary"] []]) [] =
      .error (.invalidPatch
        [("/data/basics/name", "Expected string, received number")]) ∧
    applyResumePatch sampleGenId acceptAll
      (sampleTarget [] [] [samplePage ["summary"] []])
      [.remove "/name"] = .error (.invalidPatchPath "/name") := by
  constructor
  · exact C1_failure_atomicity_invalid_patch.1 sampleGenId rejectNameValidator
      (sampleTarget [] [] [samplePage ["summary"] []]) []
      (sampleTarget [] [] [samplePage ["summary"] []])
      [(["data", "basics", "name"], "Expected string, received number")]
      (by decide) rfl
  · exact C1_failure_atomicity_invalid_patch.2.1 sampleGenId acceptAll
      (sampleTarget [] [] [samplePage ["summary"] []])
      [.remove "/name"] (.invalidPatchPath "/name") (by decide)

/-! ## C3 — move is read, remove, re-resolve, normalize, add -/

/-- A `languages` custom section fixture. -/
def langSection (idv : String) (items : List Json) : Json :=
  .obj [("id", .str idv), ("title", .str idv), ("type", .str "languages"),
        ("columns", .num 1), ("hidden", .bool false), ("items", .arr items)]

/-- C3: `move` reads the value at `from` (a `from` that reaches the append
marker `-` inside an array fails with `InvalidPatchPath`, since `from`
must name an existing element), removes it, resolves the destination
against the already-mutated document, normalizes the removed value for
its destination, and adds it there. End-to-end: moving item A (first of
two) to the end of the same list yields `[B, A]` with A's value
untouched, and moving the first custom section into the second's items
succeeds precisely because `id/s2` is resolved after the removal shifted
`s2` to index 0. -/
theorem C3_move_composition :
    (∀ (xs : List Json) (rest : List String) (path : String),
       getValueAtPath (.arr xs) ("-" :: rest) path =
         .error (.invalidPatchPath path)) ∧
    (∀ (genId : Nat → String) (st : EngineState) (fromPath path : String)
       (fromSegs : List String),
       resolvePatchPath fromPath (.move fromPath path) st.next true =
         .ok fromSegs →
       getValueAtPath st.next fromSegs fromPath =
         .error (.invalidPatchPath fromPath) →
       applyPatchStep genId st (.move fromPath path) =
         .error (.invalidPatchPath fromPath)) ∧
    applyResumePatch sampleGenId acceptAll
      (sampleTarget [expItemP "a" "A" "Engineer"] [] [samplePage ["summary"] []])
      [.move "/data/sections/experience/items/-"
        "/data/sections/experience/items/0"] =
      .error (.invalidPatchPath "/data/sections/experience/items/-") ∧
    applyResumePatch sampleGenId acceptAll
      (sampleTarget [expItemP "a" "A" "Engineer", expItemP "b" "B" "Engineer"]
        [] [samplePage ["summary"] []])
      [.move "/data/sections/experience/items/id/a"
        "/data/sections/experience/items/-"] =
      .ok (sampleTarget [expItemP "b" "B" "Engineer", expItemP "a" "A" "Engineer"]
        [] [samplePage ["summary"] []]) ∧
    applyResumePatch sampleGenId acceptAll
      (sampleTarget [] [langSection "s1" [], langSection "s2" []]
        [samplePage ["summary", "s1", "s2"] []])
      [.move "/data/customSections/0" "/data/customSections/id/s2/items/-"] =
      .ok (sampleTarget [] [langSection "s2" [langSection "s1" []]]
        [samplePage ["summary", "s2"] []]) := by
  refine ⟨?_, ?_, by decide, by decide, by decide⟩
  · intro xs rest path
    rfl
  · intro genId st fromPath path fromSegs hres hget
    have hmark : ∀ (segs : List String) (s : EngineState),
        (markImpact segs s).next = s.next := fun _ _ => rfl
    simp only [applyPatchStep, hmark]
    rw [hres, except_bind_ok, hget, except_bind_error]

/-- Witness for C3: the append-marker clause applied to a concrete array
and the step-level clause applied to a concrete state. -/
theorem C3_move_composition_witness :
    getValueAtPath (.arr [.str "x"]) ["-"] "/tags/-" =
      .error (.invalidPatchPath "/tags/-") ∧
    applyPatchStep sampleGenId
      (EngineState.mk (sampleTarget [expItemP "a" "A" "Engineer"] []
        [samplePage ["summary"] []]) false false 0)
      (.move "/data/sections/experience/items/-"
        "/data/sections/experience/items/0") =
      .error (.invalidPatchPath "/data/sections/experience/items/-") := by
  constructor
  · exact C3_move_composition.1 [.str "x"] [] "/tags/-"
  · exact C3_move_composition.2.1 sampleGenId
      (EngineState.mk (sampleTarget [expItemP "a" "A" "Engineer"] []
        [samplePage ["summary"] []]) false false 0)
      "/data/sections/experience/items/-"
      "/data/sections/experience/items/0"
      ["data", "sections", "experience", "items", "-"]
      (by decide) (by decide)

/-! ## C9 — the prototype-pollution deny-list -/

/-- The operations carrying only a `path` (no `from`). -/
def opIsPathOnly : JsonPatchOp → Bool
  | .move _ _ => false
  | .copy _ _ => false
  | _ => true

theorem validatePatchPath_forbidden (segs : List String) (op : JsonPatchOp)
    (path : String) (forFrom : Bool)
    (h : segs.any (fun s => forbiddenPathSegments.contains s) = true) :
    validatePatchPath segs op path forFrom = .error (.invalidPatchPath path) := by
  have hne : segs.isEmpty = false := by
    cases segs with
    | nil => cases h
    | cons a l => rfl
  simp only [validatePatchPath, hne, h, Bool.false_eq_true, if_false,
    eq_self_iff_true, if_true]

theorem resolvePatchPath_forbidden (path : String) (op : JsonPatchOp)
    (next : Json) (forFrom : Bool) (segs : List String)
    (hparse : parseJsonPointer path = .ok segs)
    (h : segs.any (fun s => forbiddenPathSegments.contains s) = true) :
    resolvePatchPath path op next forFrom = .error (.invalidPatchPath path) := by
  unfold resolvePatchPath
  rw [hparse, except_bind_ok,
      validatePatchPath_forbidden segs op path forFrom h, except_bind_error]

/-- C9: any `path` or `from` whose escape-decoded segments contain
`__proto__`, `prototype`, or `constructor` fails the operation with
`InvalidPatchPath`: the deny-list fires inside `validatePatchPath` before
any id resolution, for every operation kind — directly for
`add`/`replace`/`remove`/`test`, on the `from` before anything else for
`move`/`copy`, and on the destination of a `move`/`copy` whose `from`
phase succeeded. -/
theorem C9_forbidden_segment_guard :
    (∀ (segs : List String) (op : JsonPatchOp) (path : String) (forFrom : Bool),
       segs.any (fun s => forbiddenPathSegments.contains s) = true →
       validatePatchPath segs op path forFrom =
         .error (.invalidPatchPath path)) ∧
    (∀ (genId : Nat → String) (st : EngineState) (op : JsonPatchOp)
       (segs : List String),
       opIsPathOnly op = true →
       parseJsonPointer op.path = .ok segs →
       segs.any (fun s => forbiddenPathSegments.contains s) = true →
       applyPatchStep genId st op = .error (.invalidPatchPath op.path)) ∧
    (∀ (genId : Nat → String) (st : EngineState) (fromPath path : String)
       (segs : List String),
       parseJsonPointer fromPath = .ok segs →
       segs.any (fun s => forbiddenPathSegments.contains s) = true →
       applyPatchStep genId st (.move fromPath path) =
         .error (.invalidPatchPath fromPath) ∧
       applyPatchStep genId st (.copy fromPath path) =
         .error (.invalidPatchPath fromPath)) ∧
    (∀ (genId : Nat → String) (st : EngineState) (fromPath path : String)
       (fromSegs : List String) (value : Json) (next1 : Json)
       (segs : List String),
       resolvePatchPath fromPath (.move fromPath path) st.next true =
         .ok fromSegs →
       getValueAtPath st.next fromSegs fromPath = .ok value →
       mutateAtSegs st.next fromSegs fromPath (fun p k => applyRemove p k) =
         .ok next1 →
       parseJsonPointer path = .ok segs →
       segs.any (fun s => forbiddenPathSegments.contains s) = true →
       applyPatchStep genId st (.move fromPath path) =
         .error (.invalidPatchPath path)) ∧
    applyResumePatch sampleGenId acceptAll
      (sampleTarget [] [] [samplePage ["summary"] []])
      [.test "/data/__proto__/x" (.str "v")] =
      .error (.invalidPatchPath "/data/__proto__/x") ∧
    applyResumePatch sampleGenId acceptAll
      (sampleTarget [] [] [samplePage ["summary"] []])
      [.add "/data/constructor" (.str "v")] =
      .error (.invalidPatchPath "/data/constructor") ∧
    applyResumePatch sampleGenId acceptAll
      (sampleTarget [] [] [samplePage ["summary"] []])
      [.move "/data/customSections" "/data/prototype"] =
      .error (.invalidPatchPath "/data/prototype") := by
  refine ⟨validatePatchPath_forbidden, ?_, ?_, ?_, by decide, by decide, by decide⟩
  · intro genId st op segs hsimple hparse hforb
    have hres : resolvePatchPath op.path op st.next false =
        .error (.invalidPatchPath op.path) :=
      resolvePatchPath_forbidden op.path op st.next false segs hparse hforb
    cases op with
    | add p v =>
      simp only [applyPatchStep]
      rw [show JsonPatchOp.path (.add p v) = p from rfl] at hres
      rw [hres, except_bind_error]
      rfl
    | replace p v =>
      simp only [applyPatchStep]
      rw [show JsonPatchOp.path (.replace p v) = p from rfl] at hres
      rw [hres, except_bind_error]
      rfl
    | remove p =>
      simp only [applyPatchStep]
      rw [show JsonPatchOp.path (.remove p) = p from rfl] at hres
      rw [hres, except_bind_error]
      rfl
    | test p v =>
      simp only [applyPatchStep]
      rw [show JsonPatchOp.path (.test p v) = p from rfl] at hres
      rw [hres, except_bind_error]
      rfl
    | move f p => cases hsimple
    | copy f p => cases hsimple
  · intro genId st fromPath path segs hparse hforb
    constructor
    · simp only [applyPatchStep]
      rw [resolvePatchPath_forbidden fromPath (.move fromPath path) st.next true
        segs hparse hforb, except_bind_error]
    · simp only [applyPatchStep]
      rw [resolvePatchPath_forbidden fromPath (.copy fromPath path) st.next false
        segs hparse hforb, except_bind_error]
  · intro genId st fromPath path fromSegs value next1 segs hres hval hrem
      hparse hforb
    have hmark : ∀ (s2 : List String) (s : EngineState),
        (markImpact s2 s).next = s.next := fun _ _ => rfl
    simp only [applyPatchStep, hmark]
    rw [hres, except_bind_ok, hval, except_bind_ok, hrem, except_bind_ok,
        resolvePatchPath_forbidden path (.move fromPath path) next1 false
          segs hparse hforb,
        except_bind_error]

/-- Witness for C9: the deny-list applied to concrete decoded segments and
the path-only clause applied to a concrete `test` against `__proto__`. -/
theorem C9_forbidden_segment_guard_witness :
    validatePatchPath ["data", "__proto__", "x"]
      (.test "/data/__proto__/x" (.str "v")) "/data/__proto__/x" false =
      .error (.invalidPatchPath "/data/__proto__/x") ∧
    applyPatchStep sampleGenId
      (EngineState.mk (sampleTarget [] [] [samplePage ["summary"] []])
        false false 0)
      (.test "/data/__proto__/x" (.str "v")) =
      .error (.invalidPatchPath "/data/__proto__/x") := by
  constructor
  · exact C9_forbidden_segment_guard.1 ["data", "__proto__", "x"]
      (.test "/data/__proto__/x" (.str "v")) "/data/__proto__/x" false
      (by decide)
  · exact C9_forbidden_segment_guard.2.1 sampleGenId
      (EngineState.mk (sampleTarget [] [] [samplePage ["summary"] []])
        false false 0)
      (.test "/data/__proto__/x" (.str "v"))
      ["data", "__proto__", "x"] (by decide) (by decide) (by decide)

end ResumePatch
